import Mathlib

/-!
Verification development for the planning / coverage engine of the
Mikro bike-station siting tool.

Each namespace below is a shallow embedding of one source file:

* `PlanningSlice`   — `src/store/planningSlice.ts` (haversine distance,
  k-d tree nearest-neighbor search, hex grid builder, coverage gaps);
* `PotentialModel`  — the potential-surface module (gaussian hotspot
  layers, `computeHeatPoints`);
* `Scoring`         — `src/services/loadStationsFromCsv.ts`
  (six-factor suitability scorer and score bands);
* `SpatialIndex`    — `src/utils/spatialIndex.ts` (Euclidean-in-degrees
  k-d tree).

JavaScript numbers are modeled as real numbers.  Division by zero, which
produces `NaN` in JavaScript, is modeled with `Option` where a claim
depends on it; `Infinity` is modeled with `WithTop ℝ` / `Option ℝ` where
the source uses it as a sentinel.  Loops whose bounds are data-dependent
real-number steps (the hex grid builder) take an explicit fuel argument;
`none` means the fuel bound was exhausted, and a result that is `none`
for every fuel is a non-terminating run of the source loop.
-/

open Real

/-- Two-argument arctangent with the conventions of JavaScript's
`Math.atan2 (y, x)`. -/
noncomputable def atan2 (y x : ℝ) : ℝ :=
  if 0 < x then arctan (y / x)
  else if x < 0 then (if 0 ≤ y then arctan (y / x) + π else arctan (y / x) - π)
  else if 0 < y then π / 2
  else if y < 0 then -(π / 2)
  else 0

namespace PlanningSlice

/-- Latitude/longitude pair (degrees). -/
structure GeoPoint where
  lat : ℝ
  lng : ℝ

/-- Existing station record of `planningSlice.ts` (display-only fields
`name`/`capacity` kept as options). -/
structure ExistingStation where
  id : String
  lat : ℝ
  lng : ℝ
  name : Option String := none
  capacity : Option ℝ := none
  coverageRadiusMeters : ℝ := 400

/-- Coordinates of a station as a `GeoPoint`. -/
def ExistingStation.pos (s : ExistingStation) : GeoPoint := ⟨s.lat, s.lng⟩

noncomputable def toRadians (value : ℝ) : ℝ := value * π / 180

noncomputable def toDegrees (value : ℝ) : ℝ := value * 180 / π

/-- The intermediate value `a` of the haversine formula in
`haversineDistanceMeters` (local constant `a` in the source). -/
noncomputable def havA (origin target : GeoPoint) : ℝ :=
  sin (toRadians (target.lat - origin.lat) / 2) *
      sin (toRadians (target.lat - origin.lat) / 2) +
    sin (toRadians (target.lng - origin.lng) / 2) *
        sin (toRadians (target.lng - origin.lng) / 2) *
      cos (toRadians origin.lat) * cos (toRadians target.lat)

/-- Great-circle distance of `planningSlice.ts`:
`R * c` with `c = 2 * atan2 (sqrt a, sqrt (1 - a))` and `R = 6371000`. -/
noncomputable def haversineDistanceMeters (origin target : GeoPoint) : ℝ :=
  6371000 * (2 * atan2 (Real.sqrt (havA origin target)) (Real.sqrt (1 - havA origin target)))

/-- Forward geodesic projection `moveByBearing` (used for hex vertices). -/
noncomputable def moveByBearing (lat lng distanceMeters bearingDegrees : ℝ) : ℝ × ℝ :=
  let bearing := toRadians bearingDegrees
  let latRad := toRadians lat
  let lngRad := toRadians lng
  let angularDistance := distanceMeters / 6371000
  let destLat := arcsin
    (sin latRad * cos angularDistance + cos latRad * sin angularDistance * cos bearing)
  let destLng := lngRad + atan2 (sin bearing * sin angularDistance * cos latRad)
    (cos angularDistance - sin latRad * sin destLat)
  (toDegrees destLat, toDegrees destLng)

/-- Splitting axis of a k-d tree node: `"lat" | "lng"`. -/
inductive Axis where
  | lat : Axis
  | lng : Axis
deriving DecidableEq

/-- Coordinate access `station[axis]`. -/
def ExistingStation.coord (s : ExistingStation) : Axis → ℝ
  | .lat => s.lat
  | .lng => s.lng

/-- Coordinate access `target[axis]`. -/
def GeoPoint.coord (p : GeoPoint) : Axis → ℝ
  | .lat => p.lat
  | .lng => p.lng

/-- Comparator `(a, b) => a[axis] - b[axis]` of the build phase, as the
ordering relation it induces (JavaScript `sort` is stable, as is
`List.insertionSort`). -/
def stationLe (a : Axis) (x y : ExistingStation) : Prop := x.coord a ≤ y.coord a

noncomputable instance (a : Axis) : DecidableRel (stationLe a) :=
  fun x y => Real.decidableLE _ _

instance (a : Axis) : IsTotal ExistingStation (stationLe a) :=
  ⟨fun x y => le_total (x.coord a) (y.coord a)⟩

instance (a : Axis) : IsTrans ExistingStation (stationLe a) :=
  ⟨fun _ _ _ hxy hyz => le_trans hxy hyz⟩

/-- Balanced k-d tree node (`null` is `nil`). -/
inductive KdTree where
  | nil : KdTree
  | node (station : ExistingStation) (axis : Axis) (left right : KdTree) : KdTree

/-- Recursive median build of `buildKdTree`. -/
noncomputable def buildKdTree : List ExistingStation → ℕ → KdTree
  | [], _ => .nil
  | x :: xs, depth =>
    let axis : Axis := if depth % 2 = 0 then .lat else .lng
    let sorted := (x :: xs).insertionSort (stationLe axis)
    let median := sorted.length / 2
    .node (sorted.getD median x) axis
      (buildKdTree (sorted.take median) (depth + 1))
      (buildKdTree (sorted.drop (median + 1)) (depth + 1))
termination_by l => l.length
decreasing_by
  · simp only [List.length_take, List.length_insertionSort, List.length_cons]
    omega
  · simp only [List.length_drop, List.length_insertionSort, List.length_cons]
    omega

/-- Search hit `{...candidate, distanceMeters}` (`NearestStationHit`). -/
structure NearestStationHit where
  station : ExistingStation
  distanceMeters : ℝ

/-- Ordering used by `best.sort((a, b) => a.distanceMeters - b.distanceMeters)`. -/
def hitLe (x y : NearestStationHit) : Prop := x.distanceMeters ≤ y.distanceMeters

noncomputable instance : DecidableRel hitLe := fun x y => Real.decidableLE _ _

instance : IsTotal NearestStationHit hitLe := ⟨fun x y => le_total _ _⟩

instance : IsTrans NearestStationHit hitLe := ⟨fun _ _ _ hxy hyz => le_trans hxy hyz⟩

/-- Body of `tryInsert`: push the candidate, re-sort (stable), and pop the
worst entry if the list has grown beyond `limit`. -/
noncomputable def tryInsert (target : GeoPoint) (limit : ℕ)
    (best : List NearestStationHit) (candidate : ExistingStation) : List NearestStationHit :=
  let arr := (best ++
    [(⟨candidate, haversineDistanceMeters target candidate.pos⟩ : NearestStationHit)]).insertionSort hitLe
  if limit < arr.length then arr.dropLast else arr

/-- The single-axis haversine distance used for pruning: the distance from
the target to the target with one coordinate replaced by the node's. -/
noncomputable def axisDistanceMeters (target : GeoPoint) (st : ExistingStation) : Axis → ℝ
  | .lat => haversineDistanceMeters target ⟨st.lat, target.lng⟩
  | .lng => haversineDistanceMeters target ⟨target.lat, st.lng⟩

/-- Worst (largest) distance currently kept:
`best[best.length - 1]?.distanceMeters ?? Infinity`. -/
noncomputable def worstDistance (best : List NearestStationHit) : WithTop ℝ :=
  match best.getLast? with
  | none => ⊤
  | some w => (w.distanceMeters : WithTop ℝ)

/-- Recursive `traverse` of the search closure.  The source binds
`primary`/`secondary` from the sign of `delta`; here the conditional is
lifted so the recursion is structural. -/
noncomputable def traverse (target : GeoPoint) (limit : ℕ) :
    KdTree → List NearestStationHit → List NearestStationHit
  | .nil, best => best
  | .node st ax l r, best =>
    let best1 := tryInsert target limit best st
    if target.coord ax - st.coord ax < 0 then
      let best2 := traverse target limit l best1
      if best2.length < limit ∨
          (axisDistanceMeters target st ax : WithTop ℝ) < worstDistance best2 then
        traverse target limit r best2
      else best2
    else
      let best2 := traverse target limit r best1
      if best2.length < limit ∨
          (axisDistanceMeters target st ax : WithTop ℝ) < worstDistance best2 then
        traverse target limit l best2
      else best2

/-- The search function returned by `createNearestNeighborSearcher`. -/
noncomputable def createNearestNeighborSearcher (stations : List ExistingStation) :
    GeoPoint → ℕ → List NearestStationHit :=
  fun target limit => traverse target limit (buildKdTree stations 0) []

/-- Lat/lng bounding box. -/
structure Bounds where
  minLat : ℝ
  maxLat : ℝ
  minLng : ℝ
  maxLng : ℝ

/-- Bounding box of a point list (`null` on an empty list). -/
def computeBounds : List GeoPoint → Option Bounds
  | [] => none
  | p :: ps =>
    some ((p :: ps).foldl
      (fun acc point =>
        ⟨min acc.minLat point.lat, max acc.maxLat point.lat,
          min acc.minLng point.lng, max acc.maxLng point.lng⟩)
      ⟨p.lat, p.lat, p.lng, p.lng⟩)

/-- Pad a bounding box by a distance in meters, converted to degrees at the
box's center latitude. -/
noncomputable def expandBounds (bounds : Bounds) (paddingMeters : ℝ) : Bounds :=
  let metersPerDegreeLat : ℝ := 111320
  let centerLat := (bounds.minLat + bounds.maxLat) / 2
  let metersPerDegreeLng := 111320 * cos (toRadians centerLat)
  let latDelta := paddingMeters / metersPerDegreeLat
  let lngDelta := paddingMeters / metersPerDegreeLng
  ⟨bounds.minLat - latDelta, bounds.maxLat + latDelta,
    bounds.minLng - lngDelta, bounds.maxLng + lngDelta⟩

/-- Hexagon polygon: 6 vertices at bearings `0°, 60°, ..., 300°`. -/
noncomputable def hexagonAround (center : GeoPoint) (radiusMeters : ℝ) : List (ℝ × ℝ) :=
  (List.range 6).map fun i => moveByBearing center.lat center.lng radiusMeters (i * 60)

/-- Numeric rounding to 4 decimal places; models the content of the
`toFixed(4)` coordinates inside a cell id string. -/
noncomputable def round4 (x : ℝ) : ℝ := ((round (x * 10000) : ℤ) : ℝ) / 10000

/-- Grid cell.  The id string `row-lat.toFixed(4)-lng.toFixed(4)` is
modeled by its numeric content `(row, round4 lat₀, round4 lng₀)`. -/
structure HexCell where
  id : ℕ × ℝ × ℝ
  polygon : List (ℝ × ℝ)
  center : ℝ × ℝ

/-- Cell pushed for one `(row, lat, lng)` iteration of `buildHexGrid`. -/
noncomputable def mkHexCell (row : ℕ) (lat lng cellRadiusMeters : ℝ) : HexCell :=
  let polygon := hexagonAround ⟨lat, lng⟩ cellRadiusMeters
  let v0 := polygon.headD (0, 0)
  ⟨(row, round4 v0.1, round4 v0.2), polygon, (lat, lng)⟩

/-- Inner column loop of `buildHexGrid`
(`for (let lng = startLng; lng <= maxLng + lngStep; lng += lngStep)`),
with fuel; `none` means the fuel bound was exhausted. -/
noncomputable def hexLngLoop (cellRadiusMeters lat maxLng lngStep : ℝ) (row : ℕ) :
    ℕ → ℝ → List HexCell → Option (List HexCell)
  | 0, _, _ => none
  | fuel + 1, lng, acc =>
    if lng ≤ maxLng + lngStep then
      hexLngLoop cellRadiusMeters lat maxLng lngStep row fuel (lng + lngStep)
        (acc ++ [mkHexCell row lat lng cellRadiusMeters])
    else some acc

/-- Outer row loop of `buildHexGrid`
(`for (let lat = minLat; lat <= maxLat + latStep; lat += latStep)`). -/
noncomputable def hexLatLoop (cellRadiusMeters maxLat latStep minLng maxLng lngStep lngOffset : ℝ) :
    ℕ → ℝ → ℕ → List HexCell → Option (List HexCell)
  | 0, _, _, _ => none
  | fuel + 1, lat, row, acc =>
    if lat ≤ maxLat + latStep then
      match hexLngLoop cellRadiusMeters lat maxLng lngStep row (fuel + 1)
          (minLng + (if row % 2 = 1 then lngOffset else 0)) [] with
      | none => none
      | some rowCells =>
        hexLatLoop cellRadiusMeters maxLat latStep minLng maxLng lngStep lngOffset fuel
          (lat + latStep) (row + 1) (acc ++ rowCells)
    else some acc

/-- Hexagonal tessellation `buildHexGrid`, with an explicit fuel bound on
the two real-stepped loops. -/
noncomputable def buildHexGrid (fuel : ℕ) (points : List GeoPoint)
    (cellRadiusMeters : ℝ) : Option (List HexCell) :=
  match computeBounds points with
  | none => some []
  | some bounds =>
    let expanded := expandBounds bounds (cellRadiusMeters * 2)
    let metersPerDegreeLat : ℝ := 111320
    let metersPerDegreeLng :=
      111320 * cos (toRadians ((expanded.minLat + expanded.maxLat) / 2))
    let latStep := Real.sqrt 3 * cellRadiusMeters / metersPerDegreeLat
    let lngStep := 1.5 * cellRadiusMeters / metersPerDegreeLng
    let lngOffset := cellRadiusMeters / metersPerDegreeLng
    hexLatLoop cellRadiusMeters expanded.maxLat latStep expanded.minLng expanded.maxLng
      lngStep lngOffset fuel expanded.minLat 0 []

/-- Grid cell together with its coverage flag. -/
structure CoverageCell where
  id : ℕ × ℝ × ℝ
  polygon : List (ℝ × ℝ)
  center : ℝ × ℝ
  covered : Bool

/-- Coverage classification `markCoverageGaps`: a cell is covered when some
station is within its own coverage radius of the cell center. -/
noncomputable def markCoverageGaps (cells : List HexCell) (stations : List ExistingStation) :
    List CoverageCell :=
  cells.map fun cell =>
    { id := cell.id, polygon := cell.polygon, center := cell.center,
      covered := stations.any fun station =>
        decide (haversineDistanceMeters ⟨cell.center.1, cell.center.2⟩ station.pos ≤
          station.coverageRadiusMeters) }

end PlanningSlice

namespace PotentialModel

/-- Candidate station as consumed by the potential-surface module (only
`lat`/`lng` are read; bookkeeping fields of `PlanningStation` omitted). -/
structure PlanningStation where
  id : String
  lat : ℝ
  lng : ℝ

/-- Named hotspot of a static layer. -/
structure Hotspot where
  lat : ℝ
  lng : ℝ
  weight : ℝ

/-- User-tunable layer weights. -/
structure PotentialWeights where
  population : ℝ
  poi : ℝ
  transit : ℝ
  coverage : ℝ

/-- Per-layer scores stored on a grid cell. -/
structure LayerScores where
  population : ℝ
  poi : ℝ
  transit : ℝ

/-- Sampling-grid cell with its precomputed static layer scores. -/
structure PotentialGridCell where
  id : String
  lat : ℝ
  lng : ℝ
  layerScores : LayerScores

/-- Heat point `[lat, lng, intensity]`. -/
abbrev HeatPoint := ℝ × ℝ × ℝ

noncomputable def gaussianInfluence (distanceMeters sigma : ℝ) : ℝ :=
  exp (-(distanceMeters * distanceMeters / (2 * sigma * sigma)))

noncomputable def toRadiansP (degrees : ℝ) : ℝ := degrees * π / 180

/-- Local haversine copy of the potential-surface module
(argument order `lat1 lon1 lat2 lon2`). -/
noncomputable def haversineDistanceMeters (lat1 lon1 lat2 lon2 : ℝ) : ℝ :=
  let dLat := toRadiansP (lat2 - lat1)
  let dLon := toRadiansP (lon2 - lon1)
  let a := sin (dLat / 2) * sin (dLat / 2) +
    cos (toRadiansP lat1) * cos (toRadiansP lat2) * sin (dLon / 2) * sin (dLon / 2)
  6371000 * (2 * atan2 (Real.sqrt a) (Real.sqrt (1 - a)))

/-- Layer normalization of the source: every value is divided by
`Math.max(...values, 1)` (not a min-max rescaling). -/
noncomputable def normalize (values : List ℝ) : List ℝ :=
  let m := values.foldr max 1
  values.map fun value => value / m

/-- Gaussian-weighted hotspot sum at `(lat, lng)`. -/
noncomputable def scoreFromHotspots (lat lng : ℝ) (hotspots : List Hotspot)
    (sigmaMeters : ℝ) : ℝ :=
  hotspots.foldl
    (fun total hotspot =>
      total + hotspot.weight *
        gaussianInfluence (haversineDistanceMeters lat lng hotspot.lat hotspot.lng) sigmaMeters)
    0

/-- One static layer over the sample points, then normalized. -/
noncomputable def buildLayerScores (points : List PlanningSlice.GeoPoint)
    (hotspots : List Hotspot) (sigmaMeters : ℝ) : List ℝ :=
  normalize (points.map fun point => scoreFromHotspots point.lat point.lng hotspots sigmaMeters)

/-- Weighted average of the three static layers; `0` when all three
weights are zero. -/
noncomputable def staticLayerScore (layers : LayerScores) (weights : PotentialWeights) : ℝ :=
  let totalWeight := weights.population + weights.poi + weights.transit
  if totalWeight = 0 then 0
  else
    (layers.population * weights.population + layers.poi * weights.poi +
      layers.transit * weights.transit) / totalWeight

/-- Distance to the nearest candidate station; `Infinity` (here `⊤`)
for an empty candidate list. -/
noncomputable def findNearestStationDistance (cell : PotentialGridCell)
    (stations : List PlanningStation) : WithTop ℝ :=
  if stations.length = 0 then ⊤
  else
    stations.foldl
      (fun shortest station =>
        min shortest ((haversineDistanceMeters cell.lat cell.lng station.lat station.lng : ℝ) :
          WithTop ℝ))
      ⊤

/-- Coverage adjustment: full boost with no station in range (infinite
distance), otherwise gap boost minus clustering penalty. -/
noncomputable def coverageEffect (cell : PotentialGridCell) (stations : List PlanningStation)
    (coverageWeight : ℝ) : ℝ :=
  if coverageWeight = 0 then 0
  else
    WithTop.recTopCoe coverageWeight
      (fun distance =>
        let closeCoveragePenalty := exp (-(distance * distance / (2 * 180 * 180)))
        let gapBoost := 1 - exp (-(distance * distance / (2 * 650 * 650)))
        coverageWeight * (gapBoost - closeCoveragePenalty * 0.6))
      (findNearestStationDistance cell stations)

/-- Numeric rounding to 3 decimal places; models
`Number(adjusted.toFixed(3))` on the clamped (nonnegative) intensity. -/
noncomputable def jsToFixed3 (x : ℝ) : ℝ := ((round (x * 1000) : ℤ) : ℝ) / 1000

/-- Heat point computation: combined static score plus coverage
adjustment, clamped to `[0, 1.25]`. -/
noncomputable def computeHeatPoints (grid : List PotentialGridCell)
    (stations : List PlanningStation) (weights : PotentialWeights) : List HeatPoint :=
  grid.map fun cell =>
    let baseScore := staticLayerScore cell.layerScores weights
    let adjusted := max 0 (min 1.25 (baseScore + coverageEffect cell stations weights.coverage))
    (cell.lat, cell.lng, jsToFixed3 adjusted)

/-- Default weights of the module. -/
noncomputable def DEFAULT_WEIGHTS : PotentialWeights := ⟨1, 0.8, 0.9, 0.75⟩

end PotentialModel

namespace Scoring

/-- Keys of the six scoring factors. -/
inductive MetricKey where
  | coverageRatio : MetricKey
  | populationDensity : MetricKey
  | nearbyUtilization : MetricKey
  | congestionLevel : MetricKey
  | poiCount : MetricKey
  | transitProximity : MetricKey
deriving DecidableEq

/-- Raw metric inputs to the suitability scorer. -/
structure RawMetricInput where
  coverageRatio : ℝ
  populationDensity : ℝ
  nearbyUtilization : ℝ
  congestionLevel : ℝ
  poiCount : ℝ
  transitProximity : ℝ

/-- Discrete quality bands. -/
inductive ScoreBandId where
  | excellent : ScoreBandId
  | caution : ScoreBandId
  | unsuitable : ScoreBandId
deriving DecidableEq

structure ScoreBand where
  id : ScoreBandId
  label : String
  minScore : ℝ
  description : String

noncomputable def clamp01 (value : ℝ) : ℝ := min 1 (max 0 value)

def MAX_POPULATION_DENSITY : ℝ := 15000
def MAX_POI_COUNT : ℝ := 40
def MAX_TRANSIT_DISTANCE : ℝ := 1200

def excellentBand : ScoreBand :=
  ⟨.excellent, "Sehr gut", 75, "Hohe Abdeckung, starke Nachfrage und gute Anbindung"⟩

def cautionBand : ScoreBand :=
  ⟨.caution, "Vorbehalt", 50, "Solider Standort mit einzelnen Risiken"⟩

def unsuitableBand : ScoreBand :=
  ⟨.unsuitable, "Eher ungeeignet", 0, "Geringes Potenzial oder deutliche Nutzungskonflikte"⟩

/-- The three bands in descending `minScore` order, as in the source. -/
def scoringBands : List ScoreBand := [excellentBand, cautionBand, unsuitableBand]

/-- Factor definition.  The presentation-only `format` field (a
number-to-string renderer) is not modeled. -/
structure FactorDefinition where
  key : MetricKey
  label : String
  weight : ℝ
  description : String
  extract : RawMetricInput → ℝ
  normalize : ℝ → RawMetricInput → ℝ

/-- The six factors, with the weights and normalizations of the source. -/
noncomputable def scoringFactors : List FactorDefinition :=
  [⟨.coverageRatio, "Abdeckung & Reichweite", 0.25,
      "Wie gut schließt der Standort bestehende Lücken im Netz",
      fun input => input.coverageRatio, fun value _ => clamp01 value⟩,
    ⟨.populationDensity, "Bevölkerungsdichte", 0.2,
      "Potenzielle Nachfrage im Einzugsgebiet",
      fun input => input.populationDensity,
      fun value _ => clamp01 (value / MAX_POPULATION_DENSITY)⟩,
    ⟨.nearbyUtilization, "Auslastung nahegelegener Stationen", 0.2,
      "Signalisiert Nachfrage in kurzer Distanz",
      fun input => input.nearbyUtilization, fun value _ => clamp01 (value / 100)⟩,
    ⟨.congestionLevel, "Engpässe & Konflikte", 0.1,
      "Geringere Konflikte erhöhen die Eignung",
      fun input => input.congestionLevel, fun value _ => 1 - clamp01 value⟩,
    ⟨.poiCount, "Points of Interest", 0.15,
      "Anziehungspunkte in Fußwegdistanz",
      fun input => input.poiCount, fun value _ => clamp01 (value / MAX_POI_COUNT)⟩,
    ⟨.transitProximity, "ÖPNV-Anbindung", 0.1,
      "Nähe zu Bus- und Bahnstationen",
      fun input => input.transitProximity,
      fun value _ => clamp01 (1 - value / MAX_TRANSIT_DISTANCE)⟩]

/-- Per-factor explainability record (`formattedRaw` not modeled). -/
structure FactorBreakdown where
  key : MetricKey
  label : String
  weight : ℝ
  normalizedValue : ℝ
  contribution : ℝ
  rawValue : ℝ
  description : String

/-- Scoring result.  `score` is `none` when the final normalization
divides by zero (JavaScript `NaN`). -/
structure ScoreResult where
  score : Option ℤ
  band : ScoreBand
  breakdown : List FactorBreakdown
  totalWeight : ℝ

/-- Band lookup `scoringBands.find(band => score >= band.minScore) ?? scoringBands[2]`. -/
noncomputable def mapScoreToBand (score : ℝ) : ScoreBand :=
  (scoringBands.find? fun band => decide (band.minScore ≤ score)).getD unsuitableBand

/-- Body of `computeScore`, parameterized by the factor list it closes
over.  Dividing by a zero `totalWeight` yields `NaN` in the source, which
`Math.round` propagates and every band comparison rejects (falling back to
`scoringBands[2]`); this is modeled by `score = none` with the
`unsuitableBand` fallback. -/
noncomputable def computeScoreCore (factors : List FactorDefinition)
    (input : RawMetricInput) : ScoreResult :=
  let totalWeight := factors.foldl (fun sum factor => sum + factor.weight) 0
  let breakdown := factors.map fun factor =>
    let rawValue := factor.extract input
    let normalizedValue := factor.normalize rawValue input
    ({ key := factor.key, label := factor.label, weight := factor.weight,
       normalizedValue := normalizedValue, contribution := normalizedValue * factor.weight,
       rawValue := rawValue, description := factor.description } : FactorBreakdown)
  let weightedSum := breakdown.foldl (fun sum entry => sum + entry.contribution) 0
  let score : Option ℤ :=
    if totalWeight = 0 then none else some (round (weightedSum / totalWeight * 100))
  { score := score,
    band := match score with
      | some s => mapScoreToBand (s : ℝ)
      | none => unsuitableBand,
    breakdown := breakdown,
    totalWeight := totalWeight }

/-- The exported scorer: `computeScoreCore` applied to `scoringFactors`. -/
noncomputable def computeScore (input : RawMetricInput) : ScoreResult :=
  computeScoreCore scoringFactors input

end Scoring

namespace SpatialIndex

/-- Station record of the map module. -/
structure MapStation where
  id : ℤ
  name : String
  coordinates : ℝ × ℝ
  stationNumber : ℤ

/-- Coordinate access `coordinates[axis]` for `axis ∈ {0, 1}`. -/
def coordAt (c : ℝ × ℝ) (axis : ℕ) : ℝ := if axis = 0 then c.1 else c.2

/-- Plain Euclidean distance on raw degree coordinates. -/
noncomputable def euclideanDistance (a b : ℝ × ℝ) : ℝ :=
  Real.sqrt ((a.1 - b.1) * (a.1 - b.1) + (a.2 - b.2) * (a.2 - b.2))

/-- Ordering induced by the build comparator
`(a, b) => a.coordinates[axis] - b.coordinates[axis]`. -/
def ptLe (axis : ℕ) (x y : MapStation) : Prop :=
  coordAt x.coordinates axis ≤ coordAt y.coordinates axis

noncomputable instance (axis : ℕ) : DecidableRel (ptLe axis) :=
  fun x y => Real.decidableLE _ _

instance (axis : ℕ) : IsTotal MapStation (ptLe axis) := ⟨fun x y => le_total _ _⟩

instance (axis : ℕ) : IsTrans MapStation (ptLe axis) :=
  ⟨fun _ _ _ hxy hyz => le_trans hxy hyz⟩

/-- k-d tree node of the map module (`null` is `nil`); `axis = depth % 2`. -/
inductive KDNode where
  | nil : KDNode
  | node (point : MapStation) (axis : ℕ) (left right : KDNode) : KDNode

/-- Median build `buildTree`. -/
noncomputable def buildTree : List MapStation → ℕ → KDNode
  | [], _ => .nil
  | x :: xs, depth =>
    let axis := depth % 2
    let sorted := (x :: xs).insertionSort (ptLe axis)
    let median := sorted.length / 2
    .node (sorted.getD median x) axis
      (buildTree (sorted.take median) (depth + 1))
      (buildTree (sorted.drop (median + 1)) (depth + 1))
termination_by l => l.length
decreasing_by
  · simp only [List.length_take, List.length_insertionSort, List.length_cons]
    omega
  · simp only [List.length_drop, List.length_insertionSort, List.length_cons]
    omega

/-- Result record `{station, distance}`. -/
structure Best where
  station : MapStation
  distance : ℝ

/-- Recursive search `nearestSearch`.  The source binds
`primary`/`secondary` from the sign of `diff`; the conditional is lifted
so the recursion is structural. -/
noncomputable def nearestSearch (target : ℝ × ℝ) :
    KDNode → Option Best → Option Best
  | .nil, best => best
  | .node pt ax l r, best =>
    let nodeDistance := euclideanDistance pt.coordinates target
    let currentBest : Best :=
      match best with
      | none => ⟨pt, nodeDistance⟩
      | some b => if nodeDistance < b.distance then ⟨pt, nodeDistance⟩ else b
    if coordAt target ax - coordAt pt.coordinates ax ≤ 0 then
      let cb2 := (nearestSearch target l (some currentBest)).getD currentBest
      some (if |coordAt target ax - coordAt pt.coordinates ax| < cb2.distance then
        (nearestSearch target r (some cb2)).getD cb2
      else cb2)
    else
      let cb2 := (nearestSearch target r (some currentBest)).getD currentBest
      some (if |coordAt target ax - coordAt pt.coordinates ax| < cb2.distance then
        (nearestSearch target l (some cb2)).getD cb2
      else cb2)

/-- Index construction. -/
noncomputable def createSpatialIndex (stations : List MapStation) : KDNode :=
  buildTree stations 0

/-- Exported query: `null` for an empty index, else the search result. -/
noncomputable def findNearestStation (tree : KDNode) (target : ℝ × ℝ) : Option Best :=
  match tree with
  | .nil => none
  | t => nearestSearch target t none

end SpatialIndex

/-! ## Helper lemmas -/

/-- With a zero column step, the column loop never advances past a
start value that already satisfies the loop condition. -/
theorem PlanningSlice.hexLngLoop_zero_step (c lat maxLng : ℝ) (row : ℕ) :
    ∀ (fuel : ℕ) (lng : ℝ) (acc : List PlanningSlice.HexCell), lng ≤ maxLng →
      PlanningSlice.hexLngLoop c lat maxLng 0 row fuel lng acc = none := by
  intro fuel
  induction fuel with
  | zero => intro lng acc _; rfl
  | succ f ih =>
    intro lng acc hle
    rw [PlanningSlice.hexLngLoop, if_pos (by linarith)]
    exact ih (lng + 0) _ (by linarith)

/-! ## Claims -/

/-- C2.  The spec demands that `buildHexGrid` with a degenerate cell
radius terminate with an empty cell list.  The code does not: with
`cellRadiusMeters = 0` both loop steps are `0`, the loop variables never
advance, and the loop condition stays true, so the run exhausts every
fuel bound — the source loops forever instead of returning `[]`. -/
theorem c2_hexgrid_zero_radius_never_terminates :
    ∀ fuel : ℕ,
      PlanningSlice.buildHexGrid fuel [⟨50, 8⟩] 0 = none := by
  intro fuel
  show PlanningSlice.buildHexGrid fuel [⟨50, 8⟩] 0 = none
  have hbounds : PlanningSlice.computeBounds [⟨50, 8⟩] = some ⟨50, 50, 8, 8⟩ := by
    simp [PlanningSlice.computeBounds]
  have hexp : PlanningSlice.expandBounds ⟨50, 50, 8, 8⟩ (0 * 2) = ⟨50, 50, 8, 8⟩ := by
    simp [PlanningSlice.expandBounds]
  simp only [PlanningSlice.buildHexGrid, hbounds, hexp]
  simp only [mul_zero, zero_div, zero_mul]
  cases fuel with
  | zero => rfl
  | succ f =>
    rw [PlanningSlice.hexLatLoop, if_pos (by norm_num)]
    rw [show ((8 : ℝ) + if 0 % 2 = 1 then (0 : ℝ) else 0) = 8 by norm_num]
    rw [PlanningSlice.hexLngLoop_zero_step _ _ _ _ _ 8 [] le_rfl]

/-- C4 counterexample.  The claim says the `totalWeight == 0` case of the
final normalization in `computeScore` is special-cased to return score
`0`.  The normalization body (`computeScoreCore`, which `computeScore`
instantiates with the six fixed factors) has no such special case: with a
factor list of total weight `0` the division produces `NaN` (modeled
`none`), not `0`. -/
theorem c4_no_zero_weight_special_case :
    (Scoring.computeScoreCore [] ⟨0, 0, 0, 0, 0, 0⟩).totalWeight = 0 ∧
      (Scoring.computeScoreCore [] ⟨0, 0, 0, 0, 0, 0⟩).score = none ∧
      (Scoring.computeScoreCore [] ⟨0, 0, 0, 0, 0, 0⟩).score ≠ some 0 := by
  refine ⟨rfl, ?_, ?_⟩ <;> simp [Scoring.computeScoreCore]

/-- C4 amended.  `computeScore` does not special-case `totalWeight == 0`;
instead the case is unreachable: the six factor weights sum to exactly
`1.0` for every input, so the normalization never divides by zero and the
score is always a genuine integer (never `NaN`). -/
theorem c4_total_weight_is_one :
    ∀ input : Scoring.RawMetricInput,
      (Scoring.computeScore input).totalWeight = 1 ∧
        ∃ s : ℤ, (Scoring.computeScore input).score = some s := by
  intro input
  constructor
  · show (Scoring.computeScore input).totalWeight = 1
    simp only [Scoring.computeScore, Scoring.computeScoreCore, Scoring.scoringFactors,
      List.foldl_cons, List.foldl_nil]
    norm_num
  · have h : (Scoring.computeScore input).score ≠ none := by
      simp only [Scoring.computeScore, Scoring.computeScoreCore, Scoring.scoringFactors,
        List.foldl_cons, List.foldl_nil]
      rw [if_neg (by norm_num)]
      simp
    exact Option.ne_none_iff_exists'.mp h

/-- Band of a real score, written as the descending threshold chain. -/
theorem Scoring.mapScoreToBand_eq (s : ℝ) :
    Scoring.mapScoreToBand s =
      (if 75 ≤ s then Scoring.excellentBand
        else if 50 ≤ s then Scoring.cautionBand
        else Scoring.unsuitableBand) := by
  by_cases h75 : (75 : ℝ) ≤ s
  · simp [Scoring.mapScoreToBand, Scoring.scoringBands, Scoring.excellentBand, h75]
  · by_cases h50 : (50 : ℝ) ≤ s
    · simp [Scoring.mapScoreToBand, Scoring.scoringBands, Scoring.excellentBand,
        Scoring.cautionBand, h75, h50]
    · by_cases h0 : (0 : ℝ) ≤ s
      · simp [Scoring.mapScoreToBand, Scoring.scoringBands, Scoring.excellentBand,
          Scoring.cautionBand, Scoring.unsuitableBand, h75, h50, h0]
      · simp [Scoring.mapScoreToBand, Scoring.scoringBands, Scoring.excellentBand,
          Scoring.cautionBand, Scoring.unsuitableBand, h75, h50, h0]

/-- Rounding is monotone. -/
theorem roundMonoR {x y : ℝ} (h : x ≤ y) : round x ≤ round y := by
  rw [round_eq, round_eq]
  exact Int.floor_le_floor (by linarith)

/-- Clamping to the unit interval stays in the unit interval. -/
theorem Scoring.clamp01_mem (v : ℝ) : 0 ≤ Scoring.clamp01 v ∧ Scoring.clamp01 v ≤ 1 :=
  ⟨le_min (by norm_num) (le_max_left 0 v), min_le_left 1 (max 0 v)⟩

/-- C8.  Bands are checked in the source's descending `minScore` order and
the first inclusive lower bound wins: `excellent` for score `≥ 75`,
`caution` for score `≥ 50`, else `unsuitable`; scores of exactly `75` and
`50` land in `excellent` and `caution`.  `computeScore` assigns its band
through exactly this lookup on its rounded integer score. -/
theorem c8_band_thresholds :
    (∀ s : ℝ, (Scoring.mapScoreToBand s).id =
      (if 75 ≤ s then Scoring.ScoreBandId.excellent
        else if 50 ≤ s then Scoring.ScoreBandId.caution
        else Scoring.ScoreBandId.unsuitable)) ∧
      (Scoring.mapScoreToBand 75).id = Scoring.ScoreBandId.excellent ∧
      (Scoring.mapScoreToBand 50).id = Scoring.ScoreBandId.caution ∧
      ∀ input : Scoring.RawMetricInput, ∃ s : ℤ,
        (Scoring.computeScore input).score = some s ∧
          (Scoring.computeScore input).band = Scoring.mapScoreToBand (s : ℝ) := by
  have hmain : ∀ s : ℝ, (Scoring.mapScoreToBand s).id =
      (if 75 ≤ s then Scoring.ScoreBandId.excellent
        else if 50 ≤ s then Scoring.ScoreBandId.caution
        else Scoring.ScoreBandId.unsuitable) := by
    intro s
    rw [Scoring.mapScoreToBand_eq]
    split_ifs <;> rfl
  refine ⟨hmain, ?_, ?_, ?_⟩
  · rw [hmain]; norm_num
  · rw [hmain]; norm_num
  · intro input
    simp only [Scoring.computeScore, Scoring.computeScoreCore, Scoring.scoringFactors,
      List.foldl_cons, List.foldl_nil, List.map_cons, List.map_nil]
    rw [if_neg (by norm_num)]
    exact ⟨_, rfl, rfl⟩

/-- C9.  On well-formed raw metrics, `computeScore` returns an integer
score in `[0, 100]`, and it is a pure function: identical inputs give
identical results. -/
theorem c9_score_bounds_and_determinism :
    ∀ input : Scoring.RawMetricInput,
      0 ≤ input.coverageRatio → input.coverageRatio ≤ 1 →
      0 ≤ input.populationDensity →
      0 ≤ input.nearbyUtilization → input.nearbyUtilization ≤ 100 →
      0 ≤ input.congestionLevel → input.congestionLevel ≤ 1 →
      0 ≤ input.poiCount → 0 ≤ input.transitProximity →
      (∃ s : ℤ, (Scoring.computeScore input).score = some s ∧ 0 ≤ s ∧ s ≤ 100) ∧
        ∀ input' : Scoring.RawMetricInput, input = input' →
          Scoring.computeScore input = Scoring.computeScore input' := by
  intro input _ _ _ _ _ _ _ _ _
  constructor
  · obtain ⟨a1l, a1u⟩ := Scoring.clamp01_mem input.coverageRatio
    obtain ⟨a2l, a2u⟩ := Scoring.clamp01_mem (input.populationDensity / Scoring.MAX_POPULATION_DENSITY)
    obtain ⟨a3l, a3u⟩ := Scoring.clamp01_mem (input.nearbyUtilization / 100)
    obtain ⟨a4l, a4u⟩ := Scoring.clamp01_mem input.congestionLevel
    obtain ⟨a5l, a5u⟩ := Scoring.clamp01_mem (input.poiCount / Scoring.MAX_POI_COUNT)
    obtain ⟨a6l, a6u⟩ := Scoring.clamp01_mem (1 - input.transitProximity / Scoring.MAX_TRANSIT_DISTANCE)
    simp only [Scoring.computeScore, Scoring.computeScoreCore, Scoring.scoringFactors,
      List.map_cons, List.map_nil, List.foldl_cons, List.foldl_nil]
    rw [if_neg (by norm_num)]
    refine ⟨_, rfl, ?_, ?_⟩
    · have h0 : (0 : ℤ) = round (0 : ℝ) := by rw [round_zero]
      rw [h0]
      exact roundMonoR (by nlinarith)
    · have h100 : round ((100 : ℕ) : ℝ) = (100 : ℤ) := round_natCast 100
      have hle : round ((0 + Scoring.clamp01 input.coverageRatio * 0.25 +
          Scoring.clamp01 (input.populationDensity / Scoring.MAX_POPULATION_DENSITY) * 0.2 +
          Scoring.clamp01 (input.nearbyUtilization / 100) * 0.2 +
          (1 - Scoring.clamp01 input.congestionLevel) * 0.1 +
          Scoring.clamp01 (input.poiCount / Scoring.MAX_POI_COUNT) * 0.15 +
          Scoring.clamp01 (1 - input.transitProximity / Scoring.MAX_TRANSIT_DISTANCE) * 0.1) /
          (0 + 0.25 + 0.2 + 0.2 + 0.1 + 0.15 + 0.1) * 100) ≤ round (((100 : ℕ) : ℝ)) := by
        exact roundMonoR (by push_cast; nlinarith)
      rw [h100] at hle
      exact hle
  · intro input' h
    rw [h]

/-- C9 witness: the concrete scenario of the spec
(`coverageRatio 0.9`, density `12000`, utilization `80`, congestion
`0.1`, `30` POIs, transit at `200 m`). -/
theorem c9_witness :
    ((0 : ℝ) ≤ 0.9 ∧ (0.9 : ℝ) ≤ 1 ∧ (0 : ℝ) ≤ 12000 ∧ (0 : ℝ) ≤ 80 ∧ (80 : ℝ) ≤ 100 ∧
        (0 : ℝ) ≤ 0.1 ∧ (0.1 : ℝ) ≤ 1 ∧ (0 : ℝ) ≤ 30 ∧ (0 : ℝ) ≤ 200) ∧
      (∃ s : ℤ,
          (Scoring.computeScore ⟨0.9, 12000, 80, 0.1, 30, 200⟩).score = some s ∧
            0 ≤ s ∧ s ≤ 100) ∧
        ∀ input' : Scoring.RawMetricInput,
          (⟨0.9, 12000, 80, 0.1, 30, 200⟩ : Scoring.RawMetricInput) = input' →
            Scoring.computeScore ⟨0.9, 12000, 80, 0.1, 30, 200⟩ = Scoring.computeScore input' :=
  ⟨by norm_num,
    c9_score_bounds_and_determinism ⟨0.9, 12000, 80, 0.1, 30, 200⟩ (by norm_num) (by norm_num)
      (by norm_num) (by norm_num) (by norm_num) (by norm_num) (by norm_num) (by norm_num)
      (by norm_num)⟩

/-- C6.  `markCoverageGaps` keeps every cell (same length, same data, same
order) and marks a cell covered exactly when some station's haversine
distance to the cell center is at most that station's coverage radius; in
particular every cell is uncovered for an empty station list, and the
function is total (never an error). -/
theorem c6_mark_coverage_gaps :
    ∀ (cells : List PlanningSlice.HexCell) (stations : List PlanningSlice.ExistingStation),
      (PlanningSlice.markCoverageGaps cells stations).length = cells.length ∧
      (∀ i, (h : i < cells.length) →
        ∃ c : PlanningSlice.CoverageCell,
          (PlanningSlice.markCoverageGaps cells stations)[i]? = some c ∧
            c.id = cells[i].id ∧ c.polygon = cells[i].polygon ∧ c.center = cells[i].center ∧
            (c.covered = true ↔ ∃ s ∈ stations,
              PlanningSlice.haversineDistanceMeters ⟨cells[i].center.1, cells[i].center.2⟩
                  s.pos ≤ s.coverageRadiusMeters)) ∧
      ∀ c ∈ PlanningSlice.markCoverageGaps cells [], c.covered = false := by
  intro cells stations
  refine ⟨by simp [PlanningSlice.markCoverageGaps], ?_, ?_⟩
  · intro i h
    refine ⟨⟨cells[i].id, cells[i].polygon, cells[i].center,
      stations.any fun station =>
        decide (PlanningSlice.haversineDistanceMeters ⟨cells[i].center.1, cells[i].center.2⟩
          station.pos ≤ station.coverageRadiusMeters)⟩, ?_, rfl, rfl, rfl, ?_⟩
    · rw [PlanningSlice.markCoverageGaps, List.getElem?_map, List.getElem?_eq_getElem h]
      rfl
    · simp [List.any_eq_true]
  · intro c hc
    rw [PlanningSlice.markCoverageGaps] at hc
    obtain ⟨cell, _, rfl⟩ := List.mem_map.mp hc
    rfl

/-- C6 witness: a one-cell grid against the empty station list. -/
theorem c6_witness :
    (0 < 1) ∧
      ∃ c : PlanningSlice.CoverageCell,
        (PlanningSlice.markCoverageGaps [⟨(0, 0, 0), [], (0, 0)⟩] [])[0]? = some c ∧
          c.id = ([(⟨(0, 0, 0), [], (0, 0)⟩ : PlanningSlice.HexCell)])[0].id ∧
          c.polygon = ([(⟨(0, 0, 0), [], (0, 0)⟩ : PlanningSlice.HexCell)])[0].polygon ∧
          c.center = ([(⟨(0, 0, 0), [], (0, 0)⟩ : PlanningSlice.HexCell)])[0].center ∧
          (c.covered = true ↔ ∃ s ∈ ([] : List PlanningSlice.ExistingStation),
            PlanningSlice.haversineDistanceMeters
                ⟨([(⟨(0, 0, 0), [], (0, 0)⟩ : PlanningSlice.HexCell)])[0].center.1,
                  ([(⟨(0, 0, 0), [], (0, 0)⟩ : PlanningSlice.HexCell)])[0].center.2⟩ s.pos ≤
              s.coverageRadiusMeters) :=
  ⟨Nat.zero_lt_one,
    (c6_mark_coverage_gaps [⟨(0, 0, 0), [], (0, 0)⟩] []).2.1 0 Nat.zero_lt_one⟩

/-- Rounding to three decimals keeps a value of `[0, 1.25]` in `[0, 1.25]`
(`1.25` has exactly three decimals). -/
theorem PotentialModel.jsToFixed3_mem {x : ℝ} (h0 : 0 ≤ x) (h1 : x ≤ 1.25) :
    0 ≤ PotentialModel.jsToFixed3 x ∧ PotentialModel.jsToFixed3 x ≤ 1.25 := by
  constructor
  · have : (0 : ℤ) ≤ round (x * 1000) := by
      have h := roundMonoR (show (0 : ℝ) ≤ x * 1000 by nlinarith)
      rwa [round_zero] at h
    have : (0 : ℝ) ≤ ((round (x * 1000) : ℤ) : ℝ) := Int.cast_nonneg.mpr this
    unfold PotentialModel.jsToFixed3
    linarith
  · have hr : round (x * 1000) ≤ (1250 : ℤ) := by
      have h := roundMonoR (show x * 1000 ≤ ((1250 : ℤ) : ℝ) by push_cast; nlinarith)
      rwa [round_intCast] at h
    have : ((round (x * 1000) : ℤ) : ℝ) ≤ 1250 := by exact_mod_cast hr
    unfold PotentialModel.jsToFixed3
    linarith

/-- C3.  `computeHeatPoints` yields exactly one heat point per input cell,
in input order (same `lat`/`lng` at every index), and for weights in
`[0, 1.5]` on all four channels every intensity lies in `[0, 1.25]`. -/
theorem c3_heat_points_shape_and_bounds :
    ∀ (grid : List PotentialModel.PotentialGridCell)
      (stations : List PotentialModel.PlanningStation)
      (weights : PotentialModel.PotentialWeights),
      0 ≤ weights.population → weights.population ≤ 1.5 →
      0 ≤ weights.poi → weights.poi ≤ 1.5 →
      0 ≤ weights.transit → weights.transit ≤ 1.5 →
      0 ≤ weights.coverage → weights.coverage ≤ 1.5 →
      (PotentialModel.computeHeatPoints grid stations weights).length = grid.length ∧
        ∀ i, (h : i < grid.length) →
          ∃ v : ℝ,
            (PotentialModel.computeHeatPoints grid stations weights)[i]? =
                some (grid[i].lat, grid[i].lng, v) ∧
              0 ≤ v ∧ v ≤ 1.25 := by
  intro grid stations weights _ _ _ _ _ _ _ _
  refine ⟨by simp [PotentialModel.computeHeatPoints], ?_⟩
  intro i h
  refine ⟨PotentialModel.jsToFixed3 (max 0 (min 1.25
    (PotentialModel.staticLayerScore grid[i].layerScores weights +
      PotentialModel.coverageEffect grid[i] stations weights.coverage))), ?_, ?_⟩
  · rw [PotentialModel.computeHeatPoints, List.getElem?_map, List.getElem?_eq_getElem h]
    rfl
  · exact PotentialModel.jsToFixed3_mem (le_max_left 0 _)
      (max_le (by norm_num) (min_le_left 1.25 _))

/-- C3 witness: a single cell with the default weights and no stations. -/
theorem c3_witness :
    ((0 : ℝ) ≤ 1 ∧ (1 : ℝ) ≤ 1.5 ∧ (0 : ℝ) ≤ 0.8 ∧ (0.8 : ℝ) ≤ 1.5 ∧ (0 : ℝ) ≤ 0.9 ∧
        (0.9 : ℝ) ≤ 1.5 ∧ (0 : ℝ) ≤ 0.75 ∧ (0.75 : ℝ) ≤ 1.5) ∧
      (PotentialModel.computeHeatPoints [⟨"c", 50, 8, ⟨0, 0, 0⟩⟩] [] ⟨1, 0.8, 0.9, 0.75⟩).length =
          ([(⟨"c", 50, 8, ⟨0, 0, 0⟩⟩ : PotentialModel.PotentialGridCell)]).length ∧
        ∀ i, (h : i < ([(⟨"c", 50, 8, ⟨0, 0, 0⟩⟩ : PotentialModel.PotentialGridCell)]).length) →
          ∃ v : ℝ,
            (PotentialModel.computeHeatPoints [⟨"c", 50, 8, ⟨0, 0, 0⟩⟩] [] ⟨1, 0.8, 0.9, 0.75⟩)[i]? =
                some (([(⟨"c", 50, 8, ⟨0, 0, 0⟩⟩ : PotentialModel.PotentialGridCell)])[i].lat,
                  ([(⟨"c", 50, 8, ⟨0, 0, 0⟩⟩ : PotentialModel.PotentialGridCell)])[i].lng, v) ∧
              0 ≤ v ∧ v ≤ 1.25 :=
  ⟨by norm_num,
    c3_heat_points_shape_and_bounds [⟨"c", 50, 8, ⟨0, 0, 0⟩⟩] [] ⟨1, 0.8, 0.9, 0.75⟩
      (by norm_num) (by norm_num) (by norm_num) (by norm_num) (by norm_num) (by norm_num)
      (by norm_num) (by norm_num)⟩

/-- Haversine of a point with itself is zero. -/
theorem PotentialModel.hav4_self :
    PotentialModel.haversineDistanceMeters 0 0 0 0 = 0 := by
  simp [PotentialModel.haversineDistanceMeters, PotentialModel.toRadiansP, atan2]

/-- Haversine between `(0°, 90°)` and `(0°, 0°)`: a quarter of the
equator. -/
theorem PotentialModel.hav4_quarter :
    PotentialModel.haversineDistanceMeters 0 90 0 0 = 6371000 * (2 * (π / 4)) := by
  have h1 : PotentialModel.toRadiansP (0 - 90) / 2 = -(π / 4) := by
    unfold PotentialModel.toRadiansP; ring
  have ha : sin (PotentialModel.toRadiansP (0 - 0) / 2) *
        sin (PotentialModel.toRadiansP (0 - 0) / 2) +
      cos (PotentialModel.toRadiansP 0) * cos (PotentialModel.toRadiansP 0) *
        sin (PotentialModel.toRadiansP (0 - 90) / 2) *
        sin (PotentialModel.toRadiansP (0 - 90) / 2) = 1 / 2 := by
    rw [h1]
    simp [PotentialModel.toRadiansP, Real.sin_pi_div_four]
    rw [show √2 / 2 * (√2 / 2) = √2 * √2 / 4 by ring,
      Real.mul_self_sqrt (by norm_num : (0 : ℝ) ≤ 2)]
    norm_num
  have hpos : 0 < Real.sqrt (1 / 2) := Real.sqrt_pos.mpr (by norm_num)
  simp only [PotentialModel.haversineDistanceMeters, ha]
  rw [show (1 : ℝ) - 1 / 2 = 1 / 2 by norm_num, atan2, if_pos hpos,
    div_self (ne_of_gt hpos), Real.arctan_one]

/-- The concrete two-point, one-hotspot layer used to refute the min-max
normalization claim. -/
noncomputable def c7Layer : List ℝ :=
  PotentialModel.buildLayerScores [⟨0, 0⟩, ⟨0, 90⟩] [⟨0, 0, 1 / 2⟩] 480

/-- C7 counterexample.  The spec claims each static layer is min-max
normalized across the sample points, the layer minimum mapping to `0` and
the maximum to `1`.  On the concrete layer `c7Layer` (two sample points,
one hotspot of weight `1/2`) every normalized value is strictly between
`0` and `1` — the source divides by `max(layer max, 1)` and never
subtracts the minimum — and the layer is not constant, so neither end of
the min-max property holds. -/
theorem c7_layer_not_minmax_normalized :
    c7Layer.length = 2 ∧
      0 < c7Layer.foldr min 1 ∧
      c7Layer.foldr max 0 < 1 ∧
      c7Layer.getD 0 0 ≠ c7Layer.getD 1 0 := by
  have e1 : PotentialModel.scoreFromHotspots 0 0 [⟨0, 0, 1 / 2⟩] 480 = 1 / 2 := by
    simp [PotentialModel.scoreFromHotspots, PotentialModel.gaussianInfluence,
      PotentialModel.hav4_self]
  have e2 : PotentialModel.scoreFromHotspots 0 90 [⟨0, 0, 1 / 2⟩] 480 =
      1 / 2 * Real.exp (-(6371000 * (2 * (π / 4)) * (6371000 * (2 * (π / 4))) /
        (2 * 480 * 480))) := by
    simp [PotentialModel.scoreFromHotspots, PotentialModel.gaussianInfluence,
      PotentialModel.hav4_quarter]
  set s2 : ℝ := 1 / 2 * Real.exp (-(6371000 * (2 * (π / 4)) * (6371000 * (2 * (π / 4))) /
    (2 * 480 * 480))) with hs2def
  have hs2pos : 0 < s2 := by
    rw [hs2def]; positivity
  have hs2lt : s2 < 1 / 2 := by
    rw [hs2def]
    have hexp : Real.exp (-(6371000 * (2 * (π / 4)) * (6371000 * (2 * (π / 4))) /
        (2 * 480 * 480))) < 1 := by
      rw [Real.exp_lt_one_iff]
      have hπ := Real.pi_pos
      nlinarith
    nlinarith [Real.exp_pos (-(6371000 * (2 * (π / 4)) * (6371000 * (2 * (π / 4))) /
      (2 * 480 * 480)))]
  have hL : c7Layer = [1 / 2 / 1, s2 / 1] := by
    unfold c7Layer
    rw [PotentialModel.buildLayerScores]
    simp only [List.map_cons, List.map_nil, e1, e2]
    rw [PotentialModel.normalize]
    simp only [List.foldr_cons, List.foldr_nil]
    rw [max_eq_right (le_of_lt (lt_trans hs2lt (by norm_num))),
      max_eq_right (by norm_num : (1 / 2 : ℝ) ≤ 1)]
    simp
  rw [hL]
  refine ⟨rfl, ?_, ?_, ?_⟩
  · simp only [List.foldr_cons, List.foldr_nil]
    rw [div_one, div_one]
    exact lt_min (by norm_num) (lt_min hs2pos (by norm_num))
  · simp only [List.foldr_cons, List.foldr_nil]
    rw [div_one, div_one]
    rw [max_eq_left (le_of_lt hs2pos), max_eq_left (le_of_lt hs2lt)]
    norm_num
  · simp only [List.getD, List.getElem?_cons_zero, List.getElem?_cons_succ, Option.getD_some]
    rw [div_one, div_one]
    exact Ne.symm (ne_of_lt hs2lt)

/-- The initial value is a lower bound of a right max-fold. -/
theorem PotentialModel.init_le_foldr_max (l : List ℝ) (init : ℝ) :
    init ≤ l.foldr max init := by
  induction l with
  | nil => exact le_refl init
  | cons x xs ih => exact le_trans ih (le_max_right x (xs.foldr max init))

/-- Every member is a lower bound of a right max-fold. -/
theorem PotentialModel.mem_le_foldr_max (l : List ℝ) (init : ℝ) :
    ∀ x ∈ l, x ≤ l.foldr max init := by
  induction l with
  | nil => intro x hx; cases hx
  | cons y ys ih =>
    intro x hx
    rcases List.mem_cons.mp hx with h | h
    · subst h; exact le_max_left x (ys.foldr max init)
    · exact le_trans (ih x h) (le_max_right y (ys.foldr max init))

/-- A gaussian hotspot sum with nonnegative weights is nonnegative
(stated over the fold with a general accumulator). -/
theorem PotentialModel.hotspot_fold_nonneg :
    ∀ (hotspots : List PotentialModel.Hotspot) (lat lng sigma acc : ℝ), 0 ≤ acc →
      (∀ h ∈ hotspots, 0 ≤ h.weight) →
      0 ≤ hotspots.foldl
        (fun total hotspot =>
          total + hotspot.weight *
            PotentialModel.gaussianInfluence
              (PotentialModel.haversineDistanceMeters lat lng hotspot.lat hotspot.lng) sigma)
        acc := by
  intro hotspots
  induction hotspots with
  | nil => intro lat lng sigma acc hacc _; exact hacc
  | cons h hs ih =>
    intro lat lng sigma acc hacc hw
    rw [List.foldl_cons]
    refine ih lat lng sigma _ ?_ fun x hx => hw x (List.mem_cons_of_mem h hx)
    have hge : 0 ≤ h.weight := hw h (List.mem_cons_self h hs)
    have hexp := Real.exp_pos (-(PotentialModel.haversineDistanceMeters lat lng h.lat h.lng *
      PotentialModel.haversineDistanceMeters lat lng h.lat h.lng / (2 * sigma * sigma)))
    unfold PotentialModel.gaussianInfluence
    nlinarith

/-- C7 amended.  Each static layer value is the gaussian-weighted hotspot
sum, and the layer is then normalized by dividing every value by
`max(layer maximum, 1)` — not by a min-max rescaling.  With nonnegative
hotspot weights all outputs lie in `[0, 1]`, but the layer minimum maps
to `0` only when it already is `0`, and the maximum maps to `1` only when
the raw maximum is at least `1`. -/
theorem c7_layer_max_normalization :
    ∀ (points : List PlanningSlice.GeoPoint) (hotspots : List PotentialModel.Hotspot)
      (sigmaMeters : ℝ),
      (∀ h ∈ hotspots, 0 ≤ h.weight) →
      (PotentialModel.buildLayerScores points hotspots sigmaMeters).length = points.length ∧
        (∀ i, (h : i < points.length) →
          (PotentialModel.buildLayerScores points hotspots sigmaMeters)[i]? =
            some (PotentialModel.scoreFromHotspots points[i].lat points[i].lng hotspots
                sigmaMeters /
              ((points.map fun p =>
                  PotentialModel.scoreFromHotspots p.lat p.lng hotspots sigmaMeters).foldr
                max 1))) ∧
        ∀ v ∈ PotentialModel.buildLayerScores points hotspots sigmaMeters, 0 ≤ v ∧ v ≤ 1 := by
  intro points hotspots sigmaMeters hw
  have hm1 : (1 : ℝ) ≤
      (points.map fun p =>
        PotentialModel.scoreFromHotspots p.lat p.lng hotspots sigmaMeters).foldr max 1 :=
    PotentialModel.init_le_foldr_max _ 1
  have hmpos : (0 : ℝ) <
      (points.map fun p =>
        PotentialModel.scoreFromHotspots p.lat p.lng hotspots sigmaMeters).foldr max 1 :=
    lt_of_lt_of_le one_pos hm1
  refine ⟨by simp [PotentialModel.buildLayerScores, PotentialModel.normalize], ?_, ?_⟩
  · intro i h
    rw [PotentialModel.buildLayerScores, PotentialModel.normalize]
    rw [List.getElem?_map, List.getElem?_map, List.getElem?_eq_getElem h]
    rfl
  · intro v hv
    rw [PotentialModel.buildLayerScores, PotentialModel.normalize] at hv
    simp only [List.mem_map] at hv
    obtain ⟨x, hx, rfl⟩ := hv
    obtain ⟨p, hp, rfl⟩ := hx
    have hx0 : 0 ≤ PotentialModel.scoreFromHotspots p.lat p.lng hotspots sigmaMeters :=
      PotentialModel.hotspot_fold_nonneg hotspots p.lat p.lng sigmaMeters 0 le_rfl hw
    constructor
    · exact div_nonneg hx0 (le_of_lt hmpos)
    · refine (div_le_one hmpos).mpr ?_
      exact PotentialModel.mem_le_foldr_max _ 1 _
        (List.mem_map.mpr ⟨p, hp, rfl⟩)

/-- C7 witness: one sample point with no hotspots. -/
theorem c7_witness :
    (∀ h ∈ ([] : List PotentialModel.Hotspot), 0 ≤ h.weight) ∧
      (PotentialModel.buildLayerScores [⟨0, 0⟩] [] 480).length =
          ([(⟨0, 0⟩ : PlanningSlice.GeoPoint)]).length ∧
        (∀ i, (h : i < ([(⟨0, 0⟩ : PlanningSlice.GeoPoint)]).length) →
          (PotentialModel.buildLayerScores [⟨0, 0⟩] [] 480)[i]? =
            some (PotentialModel.scoreFromHotspots
                ([(⟨0, 0⟩ : PlanningSlice.GeoPoint)])[i].lat
                ([(⟨0, 0⟩ : PlanningSlice.GeoPoint)])[i].lng [] 480 /
              ((([(⟨0, 0⟩ : PlanningSlice.GeoPoint)]).map fun p =>
                  PotentialModel.scoreFromHotspots p.lat p.lng [] 480).foldr max 1))) ∧
        ∀ v ∈ PotentialModel.buildLayerScores [⟨0, 0⟩] [] 480, 0 ≤ v ∧ v ≤ 1 :=
  ⟨by simp, c7_layer_max_normalization [⟨0, 0⟩] [] 480 (by simp)⟩

/-- Size of a k-d tree. -/
def PlanningSlice.KdTree.size : PlanningSlice.KdTree → ℕ
  | .nil => 0
  | .node _ _ l r => 1 + l.size + r.size

/-- The build keeps every station: tree size equals input length. -/
theorem PlanningSlice.buildKdTree_size :
    ∀ (n : ℕ) (l : List PlanningSlice.ExistingStation) (d : ℕ), l.length ≤ n →
      (PlanningSlice.buildKdTree l d).size = l.length := by
  intro n
  induction n with
  | zero =>
    intro l d hl
    have : l = [] := List.length_eq_zero.mp (Nat.le_zero.mp hl)
    subst this
    simp [PlanningSlice.buildKdTree, PlanningSlice.KdTree.size]
  | succ n ih =>
    intro l d hl
    cases l with
    | nil => simp [PlanningSlice.buildKdTree, PlanningSlice.KdTree.size]
    | cons x xs =>
      simp only [List.length_cons] at hl
      rw [PlanningSlice.buildKdTree]
      simp only [PlanningSlice.KdTree.size]
      generalize hs : (x :: xs).insertionSort (PlanningSlice.stationLe
        (if d % 2 = 0 then PlanningSlice.Axis.lat else PlanningSlice.Axis.lng)) = s
      have hslen : s.length = xs.length + 1 := by
        rw [← hs, List.length_insertionSort]; rfl
      rw [ih (s.take (s.length / 2)) (d + 1) (by simp only [List.length_take]; omega),
        ih (s.drop (s.length / 2 + 1)) (d + 1) (by simp only [List.length_drop]; omega)]
      simp only [List.length_take, List.length_drop, List.length_cons, hslen]
      omega


/-- Length of one `tryInsert` step. -/
theorem PlanningSlice.tryInsert_length (target : PlanningSlice.GeoPoint) (limit : ℕ)
    (best : List PlanningSlice.NearestStationHit) (candidate : PlanningSlice.ExistingStation)
    (hb : best.length ≤ limit) :
    (PlanningSlice.tryInsert target limit best candidate).length =
      min (best.length + 1) limit := by
  have hlen : ((best ++
      [(⟨candidate, PlanningSlice.haversineDistanceMeters target candidate.pos⟩ :
        PlanningSlice.NearestStationHit)]).insertionSort PlanningSlice.hitLe).length =
      best.length + 1 := by
    rw [List.length_insertionSort, List.length_append]; rfl
  simp only [PlanningSlice.tryInsert]
  split
  · rename_i h
    rw [List.length_dropLast, hlen]
    rw [hlen] at h
    omega
  · rename_i h
    rw [hlen]
    rw [hlen] at h
    omega

/-- Every `tryInsert` result is sorted by distance. -/
theorem PlanningSlice.tryInsert_sorted (target : PlanningSlice.GeoPoint) (limit : ℕ)
    (best : List PlanningSlice.NearestStationHit) (candidate : PlanningSlice.ExistingStation) :
    List.Sorted PlanningSlice.hitLe (PlanningSlice.tryInsert target limit best candidate) := by
  simp only [PlanningSlice.tryInsert]
  split
  · exact List.Pairwise.sublist (List.dropLast_sublist _)
      (List.sorted_insertionSort PlanningSlice.hitLe _)
  · exact List.sorted_insertionSort PlanningSlice.hitLe _

/-- The candidate list never grows beyond `limit` during the traversal,
and a subtree of `s` stations grows it by exactly `s`, capped at `limit`. -/
theorem PlanningSlice.traverse_length (target : PlanningSlice.GeoPoint) (limit : ℕ) :
    ∀ (t : PlanningSlice.KdTree) (best : List PlanningSlice.NearestStationHit),
      best.length ≤ limit →
      (PlanningSlice.traverse target limit t best).length =
        min (best.length + t.size) limit := by
  intro t
  induction t with
  | nil =>
    intro best hb
    simp only [PlanningSlice.traverse, PlanningSlice.KdTree.size]
    omega
  | node st ax l r ihl ihr =>
    intro best hb
    have h1 := PlanningSlice.tryInsert_length target limit best st hb
    have h1le : (PlanningSlice.tryInsert target limit best st).length ≤ limit := by omega
    rw [PlanningSlice.traverse]
    by_cases hδ : target.coord ax - st.coord ax < 0
    · rw [if_pos hδ]
      have h2 := ihl (PlanningSlice.tryInsert target limit best st) h1le
      have h2le : (PlanningSlice.traverse target limit l
          (PlanningSlice.tryInsert target limit best st)).length ≤ limit := by omega
      by_cases hc : (PlanningSlice.traverse target limit l
            (PlanningSlice.tryInsert target limit best st)).length < limit ∨
          (PlanningSlice.axisDistanceMeters target st ax : WithTop ℝ) <
            PlanningSlice.worstDistance (PlanningSlice.traverse target limit l
              (PlanningSlice.tryInsert target limit best st))
      · rw [if_pos hc]
        have h3 := ihr _ h2le
        rw [h3, h2, h1]
        simp only [PlanningSlice.KdTree.size]
        omega
      · rw [if_neg hc]
        have hn := (not_or.mp hc).1
        rw [h2, h1]
        rw [h2, h1] at hn
        simp only [PlanningSlice.KdTree.size]
        omega
    · rw [if_neg hδ]
      have h2 := ihr (PlanningSlice.tryInsert target limit best st) h1le
      have h2le : (PlanningSlice.traverse target limit r
          (PlanningSlice.tryInsert target limit best st)).length ≤ limit := by omega
      by_cases hc : (PlanningSlice.traverse target limit r
            (PlanningSlice.tryInsert target limit best st)).length < limit ∨
          (PlanningSlice.axisDistanceMeters target st ax : WithTop ℝ) <
            PlanningSlice.worstDistance (PlanningSlice.traverse target limit r
              (PlanningSlice.tryInsert target limit best st))
      · rw [if_pos hc]
        have h3 := ihl _ h2le
        rw [h3, h2, h1]
        simp only [PlanningSlice.KdTree.size]
        omega
      · rw [if_neg hc]
        have hn := (not_or.mp hc).1
        rw [h2, h1]
        rw [h2, h1] at hn
        simp only [PlanningSlice.KdTree.size]
        omega

/-- The traversal keeps the candidate list sorted by distance. -/
theorem PlanningSlice.traverse_sorted (target : PlanningSlice.GeoPoint) (limit : ℕ) :
    ∀ (t : PlanningSlice.KdTree) (best : List PlanningSlice.NearestStationHit),
      List.Sorted PlanningSlice.hitLe best →
      List.Sorted PlanningSlice.hitLe (PlanningSlice.traverse target limit t best) := by
  intro t
  induction t with
  | nil => intro best hb; exact hb
  | node st ax l r ihl ihr =>
    intro best _
    simp only [PlanningSlice.traverse]
    by_cases hδ : target.coord ax - st.coord ax < 0
    · rw [if_pos hδ]
      split
      · exact ihr _ (ihl _ (PlanningSlice.tryInsert_sorted target limit best st))
      · exact ihl _ (PlanningSlice.tryInsert_sorted target limit best st)
    · rw [if_neg hδ]
      split
      · exact ihl _ (ihr _ (PlanningSlice.tryInsert_sorted target limit best st))
      · exact ihr _ (PlanningSlice.tryInsert_sorted target limit best st)

/-- Building from the empty list gives the empty tree. -/
theorem PlanningSlice.buildKdTree_nil (d : ℕ) :
    PlanningSlice.buildKdTree [] d = .nil := by
  rw [PlanningSlice.buildKdTree]

/-- C5 amended.  `kNearest` returns exactly `min k stationCount` hits,
sorted ascending by distance, and the empty station set yields the empty
list with no error.  (The input-order tie rule of the original claim does
not hold — see the counterexample — so it is dropped here.) -/
theorem c5_knearest_length_sorted_empty :
    ∀ (stations : List PlanningSlice.ExistingStation) (target : PlanningSlice.GeoPoint)
      (k : ℕ),
      (PlanningSlice.createNearestNeighborSearcher stations target k).length =
          min k stations.length ∧
        List.Sorted PlanningSlice.hitLe
          (PlanningSlice.createNearestNeighborSearcher stations target k) ∧
        PlanningSlice.createNearestNeighborSearcher [] target k = [] := by
  intro stations target k
  refine ⟨?_, ?_, ?_⟩
  · have h := PlanningSlice.traverse_length target k (PlanningSlice.buildKdTree stations 0) []
      (by simp)
    have hsize := PlanningSlice.buildKdTree_size stations.length stations 0 le_rfl
    show (PlanningSlice.traverse target k (PlanningSlice.buildKdTree stations 0) []).length =
      min k stations.length
    rw [h, hsize]
    simp only [List.length_nil]
    omega
  · exact PlanningSlice.traverse_sorted target k _ [] List.sorted_nil
  · show PlanningSlice.traverse target k (PlanningSlice.buildKdTree [] 0) [] = []
    rw [PlanningSlice.buildKdTree_nil]
    rfl

/-- C5 counterexample.  The claim says ties are broken by input order.
Take the two equidistant stations `a` (lat `-1`) and `b` (lat `1`), in
that input order, and query the origin with `k = 1`.  Input-order
tie-breaking demands station `a`; the code returns `b` (the tree root is
inserted first, and the stable sort keeps insertion order, which is
traversal order, not input order). -/
theorem c5_ties_not_broken_by_input_order :
    (PlanningSlice.createNearestNeighborSearcher
          [⟨"a", -1, 0, none, none, 400⟩, ⟨"b", 1, 0, none, none, 400⟩] ⟨0, 0⟩ 1).map
        (fun h => h.station.id) = ["b"] ∧
      PlanningSlice.haversineDistanceMeters ⟨0, 0⟩
          (PlanningSlice.ExistingStation.pos ⟨"a", -1, 0, none, none, 400⟩) =
        PlanningSlice.haversineDistanceMeters ⟨0, 0⟩
          (PlanningSlice.ExistingStation.pos ⟨"b", 1, 0, none, none, 400⟩) ∧
      ("b" : String) ≠ "a" := by
  have hA : PlanningSlice.havA ⟨0, 0⟩
      (PlanningSlice.ExistingStation.pos ⟨"a", -1, 0, none, none, 400⟩) =
      sin (π / 360) * sin (π / 360) := by
    show PlanningSlice.havA ⟨0, 0⟩ ⟨-1, 0⟩ = sin (π / 360) * sin (π / 360)
    unfold PlanningSlice.havA PlanningSlice.toRadians
    rw [show ((-1 : ℝ) - 0) * π / 180 / 2 = -(π / 360) by ring,
      show ((0 : ℝ) - 0) * π / 180 / 2 = 0 by ring, Real.sin_neg, Real.sin_zero]
    ring
  have hB : PlanningSlice.havA ⟨0, 0⟩
      (PlanningSlice.ExistingStation.pos ⟨"b", 1, 0, none, none, 400⟩) =
      sin (π / 360) * sin (π / 360) := by
    show PlanningSlice.havA ⟨0, 0⟩ ⟨1, 0⟩ = sin (π / 360) * sin (π / 360)
    unfold PlanningSlice.havA PlanningSlice.toRadians
    rw [show ((1 : ℝ) - 0) * π / 180 / 2 = π / 360 by ring,
      show ((0 : ℝ) - 0) * π / 180 / 2 = 0 by ring, Real.sin_zero]
    ring
  have hd : PlanningSlice.haversineDistanceMeters ⟨0, 0⟩
      (PlanningSlice.ExistingStation.pos ⟨"a", -1, 0, none, none, 400⟩) =
      PlanningSlice.haversineDistanceMeters ⟨0, 0⟩
        (PlanningSlice.ExistingStation.pos ⟨"b", 1, 0, none, none, 400⟩) := by
    unfold PlanningSlice.haversineDistanceMeters
    rw [hA, hB]
  refine ⟨?_, hd, by decide⟩
  have hle : PlanningSlice.stationLe .lat ⟨"a", -1, 0, none, none, 400⟩
      ⟨"b", 1, 0, none, none, 400⟩ := by
    show (-1 : ℝ) ≤ 1
    norm_num
  have hbuild : PlanningSlice.buildKdTree
      [⟨"a", -1, 0, none, none, 400⟩, ⟨"b", 1, 0, none, none, 400⟩] 0 =
      .node ⟨"b", 1, 0, none, none, 400⟩ .lat
        (PlanningSlice.buildKdTree [⟨"a", -1, 0, none, none, 400⟩] 1)
        (PlanningSlice.buildKdTree [] 1) := by
    conv_lhs => rw [PlanningSlice.buildKdTree]
    simp [hle, List.insertionSort, List.orderedInsert]
  have hbuildL : PlanningSlice.buildKdTree [⟨"a", -1, 0, none, none, 400⟩] 1 =
      .node ⟨"a", -1, 0, none, none, 400⟩ .lng
        (PlanningSlice.buildKdTree [] 2) (PlanningSlice.buildKdTree [] 2) := by
    conv_lhs => rw [PlanningSlice.buildKdTree]
    simp [List.insertionSort, List.orderedInsert]
  have hble : PlanningSlice.hitLe
      ⟨⟨"b", 1, 0, none, none, 400⟩, PlanningSlice.haversineDistanceMeters ⟨0, 0⟩
        (PlanningSlice.ExistingStation.pos ⟨"b", 1, 0, none, none, 400⟩)⟩
      ⟨⟨"a", -1, 0, none, none, 400⟩, PlanningSlice.haversineDistanceMeters ⟨0, 0⟩
        (PlanningSlice.ExistingStation.pos ⟨"a", -1, 0, none, none, 400⟩)⟩ :=
    le_of_eq hd.symm
  have htry1 : PlanningSlice.tryInsert ⟨0, 0⟩ 1 [] ⟨"b", 1, 0, none, none, 400⟩ =
      [⟨⟨"b", 1, 0, none, none, 400⟩, PlanningSlice.haversineDistanceMeters ⟨0, 0⟩
        (PlanningSlice.ExistingStation.pos ⟨"b", 1, 0, none, none, 400⟩)⟩] := by
    simp [PlanningSlice.tryInsert, List.insertionSort, List.orderedInsert]
  have htry2 : PlanningSlice.tryInsert ⟨0, 0⟩ 1
      [⟨⟨"b", 1, 0, none, none, 400⟩, PlanningSlice.haversineDistanceMeters ⟨0, 0⟩
        (PlanningSlice.ExistingStation.pos ⟨"b", 1, 0, none, none, 400⟩)⟩]
      ⟨"a", -1, 0, none, none, 400⟩ =
      [⟨⟨"b", 1, 0, none, none, 400⟩, PlanningSlice.haversineDistanceMeters ⟨0, 0⟩
        (PlanningSlice.ExistingStation.pos ⟨"b", 1, 0, none, none, 400⟩)⟩] := by
    simp [PlanningSlice.tryInsert, List.insertionSort, List.orderedInsert, hble]
  show (PlanningSlice.traverse ⟨0, 0⟩ 1 (PlanningSlice.buildKdTree
      [⟨"a", -1, 0, none, none, 400⟩, ⟨"b", 1, 0, none, none, 400⟩] 0) []).map
      (fun h => h.station.id) = ["b"]
  rw [hbuild, hbuildL]
  simp only [PlanningSlice.buildKdTree_nil]
  simp only [PlanningSlice.traverse, PlanningSlice.GeoPoint.coord,
    PlanningSlice.ExistingStation.coord, htry1]
  norm_num [htry2]

/-- Stations stored in a k-d tree, root first. -/
def SpatialIndex.KDNode.toList : SpatialIndex.KDNode → List SpatialIndex.MapStation
  | .nil => []
  | .node pt _ l r => pt :: (l.toList ++ r.toList)

/-- The tree built by `buildTree` stores exactly the input stations. -/
theorem SpatialIndex.buildTree_mem :
    ∀ (n : ℕ) (l : List SpatialIndex.MapStation) (d : ℕ), l.length ≤ n →
      ∀ x, x ∈ (SpatialIndex.buildTree l d).toList ↔ x ∈ l := by
  intro n
  induction n with
  | zero =>
    intro l d hl x
    have : l = [] := List.length_eq_zero.mp (Nat.le_zero.mp hl)
    subst this
    rw [show SpatialIndex.buildTree [] d = .nil from by rw [SpatialIndex.buildTree]]
    exact Iff.rfl
  | succ n ih =>
    intro l d hl x
    cases l with
    | nil =>
      rw [show SpatialIndex.buildTree [] d = .nil from by rw [SpatialIndex.buildTree]]
      exact Iff.rfl
    | cons y ys =>
      simp only [List.length_cons] at hl
      conv_lhs => rw [SpatialIndex.buildTree]
      simp only [SpatialIndex.KDNode.toList]
      generalize hs : (y :: ys).insertionSort (SpatialIndex.ptLe (d % 2)) = s
      have hslen : s.length = ys.length + 1 := by
        rw [← hs, List.length_insertionSort]; rfl
      have hm : s.length / 2 < s.length := by omega
      have hperm : x ∈ s ↔ x ∈ y :: ys := by
        rw [← hs]
        exact (List.perm_insertionSort (SpatialIndex.ptLe (d % 2)) (y :: ys)).mem_iff
      have hgd : s.getD (s.length / 2) y = s[s.length / 2] := List.getD_eq_getElem s y hm
      have hsplit : s = s.take (s.length / 2) ++ s[s.length / 2] :: s.drop (s.length / 2 + 1) := by
        conv_lhs => rw [← List.take_append_drop (s.length / 2) s]
        rw [List.drop_eq_getElem_cons hm]
      rw [hgd]
      simp only [List.mem_cons, List.mem_append]
      rw [ih (s.take (s.length / 2)) (d + 1) (by simp only [List.length_take]; omega),
        ih (s.drop (s.length / 2 + 1)) (d + 1) (by simp only [List.length_drop]; omega)]
      rw [show (x = y ∨ x ∈ ys) ↔ x ∈ y :: ys from (List.mem_cons).symm, ← hperm]
      conv_rhs => rw [hsplit]
      simp only [List.mem_cons, List.mem_append]
      tauto

/-- Coordinate invariant of a k-d tree: left subtree values are at most
the node's on the node's axis, right subtree values are at least it. -/
inductive SpatialIndex.WF : SpatialIndex.KDNode → Prop
  | nil : SpatialIndex.WF .nil
  | node {pt : SpatialIndex.MapStation} {ax : ℕ} {l r : SpatialIndex.KDNode} :
      (∀ q ∈ l.toList,
        SpatialIndex.coordAt q.coordinates ax ≤ SpatialIndex.coordAt pt.coordinates ax) →
      (∀ q ∈ r.toList,
        SpatialIndex.coordAt pt.coordinates ax ≤ SpatialIndex.coordAt q.coordinates ax) →
      SpatialIndex.WF l → SpatialIndex.WF r → SpatialIndex.WF (.node pt ax l r)

/-- `buildTree` satisfies the coordinate invariant. -/
theorem SpatialIndex.buildTree_wf :
    ∀ (n : ℕ) (l : List SpatialIndex.MapStation) (d : ℕ), l.length ≤ n →
      SpatialIndex.WF (SpatialIndex.buildTree l d) := by
  intro n
  induction n with
  | zero =>
    intro l d hl
    have : l = [] := List.length_eq_zero.mp (Nat.le_zero.mp hl)
    subst this
    rw [show SpatialIndex.buildTree [] d = .nil from by rw [SpatialIndex.buildTree]]
    exact SpatialIndex.WF.nil
  | succ n ih =>
    intro l d hl
    cases l with
    | nil =>
      rw [show SpatialIndex.buildTree [] d = .nil from by rw [SpatialIndex.buildTree]]
      exact SpatialIndex.WF.nil
    | cons y ys =>
      simp only [List.length_cons] at hl
      conv => rw [SpatialIndex.buildTree]
      generalize hs : (y :: ys).insertionSort (SpatialIndex.ptLe (d % 2)) = s
      have hslen : s.length = ys.length + 1 := by
        rw [← hs, List.length_insertionSort]; rfl
      have hm : s.length / 2 < s.length := by omega
      have hsorted : List.Sorted (SpatialIndex.ptLe (d % 2)) s := by
        rw [← hs]
        exact List.sorted_insertionSort (SpatialIndex.ptLe (d % 2)) (y :: ys)
      have hpw := List.pairwise_iff_getElem.mp hsorted
      have hgd : s.getD (s.length / 2) y = s[s.length / 2] := List.getD_eq_getElem s y hm
      rw [hgd]
      refine SpatialIndex.WF.node ?_ ?_
        (ih (s.take (s.length / 2)) (d + 1) (by simp only [List.length_take]; omega))
        (ih (s.drop (s.length / 2 + 1)) (d + 1) (by simp only [List.length_drop]; omega))
      · intro q hq
        rw [SpatialIndex.buildTree_mem (s.take (s.length / 2)).length _ (d + 1) le_rfl] at hq
        obtain ⟨i, hi, hqi⟩ := List.getElem_of_mem hq
        have hi2 : i < s.length / 2 := by
          simp only [List.length_take] at hi
          omega
        have his : i < s.length := by omega
        have hti : (s.take (s.length / 2))[i] = s[i] := List.getElem_take s
        rw [hti] at hqi
        subst hqi
        exact hpw i (s.length / 2) his hm hi2
      · intro q hq
        rw [SpatialIndex.buildTree_mem (s.drop (s.length / 2 + 1)).length _ (d + 1) le_rfl] at hq
        obtain ⟨j, hj, hqj⟩ := List.getElem_of_mem hq
        have hjs : s.length / 2 + 1 + j < s.length := by
          simp only [List.length_drop] at hj
          omega
        have htj : (s.drop (s.length / 2 + 1))[j] = s[s.length / 2 + 1 + j] :=
          List.getElem_drop s
        rw [htj] at hqj
        subst hqj
        exact hpw (s.length / 2) (s.length / 2 + 1 + j) hm hjs (by omega)

/-- Distance along one coordinate is a lower bound of the Euclidean
distance (soundness of the pruning test). -/
theorem SpatialIndex.abs_coord_le_euclid (a b : ℝ × ℝ) (ax : ℕ) :
    |SpatialIndex.coordAt a ax - SpatialIndex.coordAt b ax| ≤
      SpatialIndex.euclideanDistance a b := by
  unfold SpatialIndex.coordAt SpatialIndex.euclideanDistance
  split_ifs
  · rw [show |a.1 - b.1| = Real.sqrt ((a.1 - b.1) * (a.1 - b.1)) from
      (Real.sqrt_mul_self_eq_abs _).symm]
    exact Real.sqrt_le_sqrt (by nlinarith [sq_nonneg (a.2 - b.2)])
  · rw [show |a.2 - b.2| = Real.sqrt ((a.2 - b.2) * (a.2 - b.2)) from
      (Real.sqrt_mul_self_eq_abs _).symm]
    exact Real.sqrt_le_sqrt (by nlinarith [sq_nonneg (a.1 - b.1)])

/-- With a defined running best, the search always produces a result. -/
theorem SpatialIndex.nearestSearch_some :
    ∀ (t : SpatialIndex.KDNode) (target : ℝ × ℝ) (b : SpatialIndex.Best),
      ∃ y, SpatialIndex.nearestSearch target t (some b) = some y := by
  intro t target b
  cases t with
  | nil => exact ⟨b, rfl⟩
  | node pt ax l r =>
    simp only [SpatialIndex.nearestSearch]
    split
    · exact ⟨_, rfl⟩
    · exact ⟨_, rfl⟩

/-- Specification of one expanded node step of `nearestSearch`: descend
into `primary` with the running best `cb`, then into `secondary` only if
the axis distance is below the best so far.  `hsec` is the geometric fact
that every station of the skipped half-space is at least the axis
distance away. -/
theorem SpatialIndex.searchCore_spec (target : ℝ × ℝ)
    (primary secondary : SpatialIndex.KDNode) (adist : ℝ)
    (ihp : ∀ (best : Option SpatialIndex.Best),
      (∀ b, best = some b →
        b.distance = SpatialIndex.euclideanDistance b.station.coordinates target) →
      ∀ rb, SpatialIndex.nearestSearch target primary best = some rb →
        rb.distance = SpatialIndex.euclideanDistance rb.station.coordinates target ∧
          (best = some rb ∨ rb.station ∈ primary.toList) ∧
          (∀ s ∈ primary.toList,
            rb.distance ≤ SpatialIndex.euclideanDistance s.coordinates target) ∧
          ∀ b, best = some b → rb.distance ≤ b.distance)
    (ihs : ∀ (best : Option SpatialIndex.Best),
      (∀ b, best = some b →
        b.distance = SpatialIndex.euclideanDistance b.station.coordinates target) →
      ∀ rb, SpatialIndex.nearestSearch target secondary best = some rb →
        rb.distance = SpatialIndex.euclideanDistance rb.station.coordinates target ∧
          (best = some rb ∨ rb.station ∈ secondary.toList) ∧
          (∀ s ∈ secondary.toList,
            rb.distance ≤ SpatialIndex.euclideanDistance s.coordinates target) ∧
          ∀ b, best = some b → rb.distance ≤ b.distance)
    (hsec : ∀ s ∈ secondary.toList,
      adist ≤ SpatialIndex.euclideanDistance s.coordinates target)
    (cb : SpatialIndex.Best)
    (hcb : cb.distance = SpatialIndex.euclideanDistance cb.station.coordinates target)
    (rb : SpatialIndex.Best)
    (hres : rb =
      (if adist <
          ((SpatialIndex.nearestSearch target primary (some cb)).getD cb).distance then
        (SpatialIndex.nearestSearch target secondary
            (some ((SpatialIndex.nearestSearch target primary (some cb)).getD cb))).getD
          ((SpatialIndex.nearestSearch target primary (some cb)).getD cb)
      else (SpatialIndex.nearestSearch target primary (some cb)).getD cb)) :
    rb.distance = SpatialIndex.euclideanDistance rb.station.coordinates target ∧
      (rb = cb ∨ rb.station ∈ primary.toList ∨ rb.station ∈ secondary.toList) ∧
      (∀ s ∈ primary.toList,
        rb.distance ≤ SpatialIndex.euclideanDistance s.coordinates target) ∧
      (∀ s ∈ secondary.toList,
        rb.distance ≤ SpatialIndex.euclideanDistance s.coordinates target) ∧
      rb.distance ≤ cb.distance := by
  obtain ⟨y, hy⟩ := SpatialIndex.nearestSearch_some primary target cb
  have hcbarg : ∀ b, (some cb : Option SpatialIndex.Best) = some b →
      b.distance = SpatialIndex.euclideanDistance b.station.coordinates target := by
    intro b hb
    injection hb with hb
    rw [← hb]
    exact hcb
  have hyspec := ihp (some cb) hcbarg y hy
  have hgd : (SpatialIndex.nearestSearch target primary (some cb)).getD cb = y := by
    rw [hy]
    rfl
  rw [hgd] at hres
  have hy_le_cb : y.distance ≤ cb.distance := hyspec.2.2.2 cb rfl
  by_cases habs : adist < y.distance
  · rw [if_pos habs] at hres
    obtain ⟨z, hz⟩ := SpatialIndex.nearestSearch_some secondary target y
    have hyarg : ∀ b, (some y : Option SpatialIndex.Best) = some b →
        b.distance = SpatialIndex.euclideanDistance b.station.coordinates target := by
      intro b hb
      injection hb with hb
      rw [← hb]
      exact hyspec.1
    have hzspec := ihs (some y) hyarg z hz
    have hgd2 : (SpatialIndex.nearestSearch target secondary (some y)).getD y = z := by
      rw [hz]
      rfl
    rw [hgd2] at hres
    subst hres
    have hz_le_y : rb.distance ≤ y.distance := hzspec.2.2.2 y rfl
    refine ⟨hzspec.1, ?_, ?_, ?_, le_trans hz_le_y hy_le_cb⟩
    · rcases hzspec.2.1 with h | h
      · injection h with h
        rcases hyspec.2.1 with h2 | h2
        · injection h2 with h2
          exact Or.inl (by rw [← h, h2])
        · exact Or.inr (Or.inl (by rw [← h]; exact h2))
      · exact Or.inr (Or.inr h)
    · intro s hs
      exact le_trans hz_le_y (hyspec.2.2.1 s hs)
    · intro s hs
      exact hzspec.2.2.1 s hs
  · rw [if_neg habs] at hres
    subst hres
    refine ⟨hyspec.1, ?_, hyspec.2.2.1, ?_, hy_le_cb⟩
    · rcases hyspec.2.1 with h | h
      · injection h with h
        exact Or.inl h.symm
      · exact Or.inr (Or.inl h)
    · intro s hs
      exact le_trans (not_lt.mp habs) (hsec s hs)

/-- Assemble the conclusions of a node step from the core step facts and
the properties of the running best `cb` at that node. -/
theorem SpatialIndex.node_assemble (target : ℝ × ℝ) (pt : SpatialIndex.MapStation) (ax : ℕ)
    (l r : SpatialIndex.KDNode) (best : Option SpatialIndex.Best)
    (cb rb : SpatialIndex.Best)
    (hmem2 : rb = cb ∨ rb.station ∈ l.toList ∨ rb.station ∈ r.toList)
    (hminl : ∀ s ∈ l.toList,
      rb.distance ≤ SpatialIndex.euclideanDistance s.coordinates target)
    (hminr : ∀ s ∈ r.toList,
      rb.distance ≤ SpatialIndex.euclideanDistance s.coordinates target)
    (hrb_le_cb : rb.distance ≤ cb.distance)
    (hcb_le_nd : cb.distance ≤ SpatialIndex.euclideanDistance pt.coordinates target)
    (hcb_opt : cb.station = pt ∨ best = some cb)
    (hcb_le_best : ∀ b, best = some b → cb.distance ≤ b.distance) :
    (best = some rb ∨ rb.station ∈ (SpatialIndex.KDNode.node pt ax l r).toList) ∧
      (∀ s ∈ (SpatialIndex.KDNode.node pt ax l r).toList,
        rb.distance ≤ SpatialIndex.euclideanDistance s.coordinates target) ∧
      ∀ b, best = some b → rb.distance ≤ b.distance := by
  refine ⟨?_, ?_, ?_⟩
  · rcases hmem2 with h | h | h
    · rcases hcb_opt with h2 | h2
      · refine Or.inr ?_
        simp only [SpatialIndex.KDNode.toList, List.mem_cons]
        exact Or.inl (by rw [h, h2])
      · exact Or.inl (by rw [h]; exact h2)
    · refine Or.inr ?_
      simp only [SpatialIndex.KDNode.toList, List.mem_cons, List.mem_append]
      tauto
    · refine Or.inr ?_
      simp only [SpatialIndex.KDNode.toList, List.mem_cons, List.mem_append]
      tauto
  · intro s hs
    simp only [SpatialIndex.KDNode.toList, List.mem_cons, List.mem_append] at hs
    rcases hs with rfl | h | h
    · exact le_trans hrb_le_cb hcb_le_nd
    · exact hminl s h
    · exact hminr s h
  · intro b hb
    exact le_trans hrb_le_cb (hcb_le_best b hb)

/-- Full specification of `nearestSearch` on a well-formed tree: the
result's distance field is the Euclidean distance to its station, the
station comes from the tree (or is the running best), and it minimizes the
Euclidean distance over the tree and the running best. -/
theorem SpatialIndex.nearestSearch_spec :
    ∀ (t : SpatialIndex.KDNode), SpatialIndex.WF t →
      ∀ (target : ℝ × ℝ) (best : Option SpatialIndex.Best),
        (∀ b, best = some b →
          b.distance = SpatialIndex.euclideanDistance b.station.coordinates target) →
        ∀ rb, SpatialIndex.nearestSearch target t best = some rb →
          rb.distance = SpatialIndex.euclideanDistance rb.station.coordinates target ∧
            (best = some rb ∨ rb.station ∈ t.toList) ∧
            (∀ s ∈ t.toList,
              rb.distance ≤ SpatialIndex.euclideanDistance s.coordinates target) ∧
            ∀ b, best = some b → rb.distance ≤ b.distance := by
  intro t
  induction t with
  | nil =>
    intro _ target best hbest rb hrb
    simp only [SpatialIndex.nearestSearch] at hrb
    refine ⟨hbest rb hrb, Or.inl hrb, ?_, ?_⟩
    · intro s hs
      simp only [SpatialIndex.KDNode.toList] at hs
      cases hs
    · intro b hb
      rw [hb] at hrb
      injection hrb with h
      rw [h]
  | node pt ax l r ihl ihr =>
    intro hwf target best hbest rb hrb
    cases hwf with
    | node hbl hbr hwl hwr =>
      have ihl' := fun best hb rb hrb => ihl hwl target best hb rb hrb
      have ihr' := fun best hb rb hrb => ihr hwr target best hb rb hrb
      have hsecr : ∀ hdiff : SpatialIndex.coordAt target ax -
          SpatialIndex.coordAt pt.coordinates ax ≤ 0,
          ∀ s ∈ r.toList,
            |SpatialIndex.coordAt target ax - SpatialIndex.coordAt pt.coordinates ax| ≤
              SpatialIndex.euclideanDistance s.coordinates target := by
        intro hdiff s hs
        have h1 := hbr s hs
        have h2 := SpatialIndex.abs_coord_le_euclid s.coordinates target ax
        rw [abs_of_nonpos hdiff]
        have h3 : SpatialIndex.coordAt pt.coordinates ax -
            SpatialIndex.coordAt target ax ≤
            |SpatialIndex.coordAt s.coordinates ax - SpatialIndex.coordAt target ax| := by
          have := le_abs_self (SpatialIndex.coordAt s.coordinates ax -
            SpatialIndex.coordAt target ax)
          linarith
        linarith
      have hsecl : ∀ hdiff : ¬ SpatialIndex.coordAt target ax -
          SpatialIndex.coordAt pt.coordinates ax ≤ 0,
          ∀ s ∈ l.toList,
            |SpatialIndex.coordAt target ax - SpatialIndex.coordAt pt.coordinates ax| ≤
              SpatialIndex.euclideanDistance s.coordinates target := by
        intro hdiff s hs
        have h1 := hbl s hs
        have h2 := SpatialIndex.abs_coord_le_euclid s.coordinates target ax
        rw [abs_of_pos (by linarith [not_le.mp hdiff])]
        have h3 : SpatialIndex.coordAt target ax - SpatialIndex.coordAt s.coordinates ax ≤
            |SpatialIndex.coordAt s.coordinates ax - SpatialIndex.coordAt target ax| := by
          have := neg_le_abs (SpatialIndex.coordAt s.coordinates ax -
            SpatialIndex.coordAt target ax)
          linarith
        linarith
      rcases best with _ | b0
      · simp only [SpatialIndex.nearestSearch] at hrb
        by_cases hdiff : SpatialIndex.coordAt target ax -
            SpatialIndex.coordAt pt.coordinates ax ≤ 0
        · rw [if_pos hdiff] at hrb
          injection hrb with hrb
          have core := SpatialIndex.searchCore_spec target l r
            |SpatialIndex.coordAt target ax - SpatialIndex.coordAt pt.coordinates ax|
            ihl' ihr' (hsecr hdiff)
            ⟨pt, SpatialIndex.euclideanDistance pt.coordinates target⟩ rfl rb hrb.symm
          refine ⟨core.1, ?_⟩
          exact SpatialIndex.node_assemble target pt ax l r none _ rb core.2.1
            core.2.2.1 core.2.2.2.1 core.2.2.2.2 le_rfl (Or.inl rfl)
            (fun b hb => by cases hb)
        · rw [if_neg hdiff] at hrb
          injection hrb with hrb
          have core := SpatialIndex.searchCore_spec target r l
            |SpatialIndex.coordAt target ax - SpatialIndex.coordAt pt.coordinates ax|
            ihr' ihl' (hsecl hdiff)
            ⟨pt, SpatialIndex.euclideanDistance pt.coordinates target⟩ rfl rb hrb.symm
          refine ⟨core.1, ?_⟩
          exact SpatialIndex.node_assemble target pt ax l r none _ rb
            (by rcases core.2.1 with h | h | h
                · exact Or.inl h
                · exact Or.inr (Or.inr h)
                · exact Or.inr (Or.inl h))
            core.2.2.2.1 core.2.2.1 core.2.2.2.2 le_rfl (Or.inl rfl)
            (fun b hb => by cases hb)
      · simp only [SpatialIndex.nearestSearch] at hrb
        by_cases hnb : SpatialIndex.euclideanDistance pt.coordinates target < b0.distance
        · rw [if_pos hnb] at hrb
          by_cases hdiff : SpatialIndex.coordAt target ax -
              SpatialIndex.coordAt pt.coordinates ax ≤ 0
          · rw [if_pos hdiff] at hrb
            injection hrb with hrb
            have core := SpatialIndex.searchCore_spec target l r
              |SpatialIndex.coordAt target ax - SpatialIndex.coordAt pt.coordinates ax|
              ihl' ihr' (hsecr hdiff)
              ⟨pt, SpatialIndex.euclideanDistance pt.coordinates target⟩ rfl rb hrb.symm
            refine ⟨core.1, ?_⟩
            exact SpatialIndex.node_assemble target pt ax l r (some b0) _ rb core.2.1
              core.2.2.1 core.2.2.2.1 core.2.2.2.2 le_rfl (Or.inl rfl)
              (fun b hb => by injection hb with hb; rw [← hb]; exact le_of_lt hnb)
          · rw [if_neg hdiff] at hrb
            injection hrb with hrb
            have core := SpatialIndex.searchCore_spec target r l
              |SpatialIndex.coordAt target ax - SpatialIndex.coordAt pt.coordinates ax|
              ihr' ihl' (hsecl hdiff)
              ⟨pt, SpatialIndex.euclideanDistance pt.coordinates target⟩ rfl rb hrb.symm
            refine ⟨core.1, ?_⟩
            exact SpatialIndex.node_assemble target pt ax l r (some b0) _ rb
              (by rcases core.2.1 with h | h | h
                  · exact Or.inl h
                  · exact Or.inr (Or.inr h)
                  · exact Or.inr (Or.inl h))
              core.2.2.2.1 core.2.2.1 core.2.2.2.2 le_rfl (Or.inl rfl)
              (fun b hb => by injection hb with hb; rw [← hb]; exact le_of_lt hnb)
        · rw [if_neg hnb] at hrb
          have hb0d : b0.distance =
              SpatialIndex.euclideanDistance b0.station.coordinates target := hbest b0 rfl
          by_cases hdiff : SpatialIndex.coordAt target ax -
              SpatialIndex.coordAt pt.coordinates ax ≤ 0
          · rw [if_pos hdiff] at hrb
            injection hrb with hrb
            have core := SpatialIndex.searchCore_spec target l r
              |SpatialIndex.coordAt target ax - SpatialIndex.coordAt pt.coordinates ax|
              ihl' ihr' (hsecr hdiff) b0 hb0d rb hrb.symm
            refine ⟨core.1, ?_⟩
            exact SpatialIndex.node_assemble target pt ax l r (some b0) _ rb core.2.1
              core.2.2.1 core.2.2.2.1 core.2.2.2.2 (not_lt.mp hnb) (Or.inr rfl)
              (fun b hb => by injection hb with hb; rw [← hb])
          · rw [if_neg hdiff] at hrb
            injection hrb with hrb
            have core := SpatialIndex.searchCore_spec target r l
              |SpatialIndex.coordAt target ax - SpatialIndex.coordAt pt.coordinates ax|
              ihr' ihl' (hsecl hdiff) b0 hb0d rb hrb.symm
            refine ⟨core.1, ?_⟩
            exact SpatialIndex.node_assemble target pt ax l r (some b0) _ rb
              (by rcases core.2.1 with h | h | h
                  · exact Or.inl h
                  · exact Or.inr (Or.inr h)
                  · exact Or.inr (Or.inl h))
              core.2.2.2.1 core.2.2.1 core.2.2.2.2 (not_lt.mp hnb) (Or.inr rfl)
              (fun b hb => by injection hb with hb; rw [← hb])

/-- A node always yields a search result, whatever the running best. -/
theorem SpatialIndex.nearestSearch_node_some
    (pt : SpatialIndex.MapStation) (ax : ℕ) (l r : SpatialIndex.KDNode)
    (target : ℝ × ℝ) (best : Option SpatialIndex.Best) :
    ∃ y, SpatialIndex.nearestSearch target (.node pt ax l r) best = some y := by
  simp only [SpatialIndex.nearestSearch]
  split
  · exact ⟨_, rfl⟩
  · exact ⟨_, rfl⟩

/-- C10.  The second spatial index works in plain Euclidean distance on
raw degree coordinates: on a non-empty station list, `findNearestStation`
returns a station minimizing `sqrt((lat1-lat2)² + (lng1-lng2)²)` over the
whole list, and its `distance` field is exactly that Euclidean value (in
degrees — no meter conversion appears anywhere in the module). -/
theorem c10_find_nearest_station_euclidean :
    ∀ (stations : List SpatialIndex.MapStation) (target : ℝ × ℝ),
      stations ≠ [] →
      ∃ res : SpatialIndex.Best,
        SpatialIndex.findNearestStation (SpatialIndex.createSpatialIndex stations) target =
            some res ∧
          res.station ∈ stations ∧
          res.distance = Real.sqrt
            ((res.station.coordinates.1 - target.1) * (res.station.coordinates.1 - target.1) +
              (res.station.coordinates.2 - target.2) *
                (res.station.coordinates.2 - target.2)) ∧
          ∀ s ∈ stations,
            res.distance ≤ Real.sqrt
              ((s.coordinates.1 - target.1) * (s.coordinates.1 - target.1) +
                (s.coordinates.2 - target.2) * (s.coordinates.2 - target.2)) := by
  intro stations target hne
  cases stations with
  | nil => exact absurd rfl hne
  | cons y ys =>
    have hwf := SpatialIndex.buildTree_wf (y :: ys).length (y :: ys) 0 le_rfl
    have hmem := SpatialIndex.buildTree_mem (y :: ys).length (y :: ys) 0 le_rfl
    rcases htree : SpatialIndex.buildTree (y :: ys) 0 with _ | ⟨pt, ax, l, r⟩
    · exfalso
      have h := (hmem y).mpr (List.mem_cons_self y ys)
      rw [htree] at h
      simp only [SpatialIndex.KDNode.toList] at h
      cases h
    · rw [htree] at hwf
      obtain ⟨rb, hrb⟩ :=
        SpatialIndex.nearestSearch_node_some pt ax l r target none
      have spec := SpatialIndex.nearestSearch_spec (.node pt ax l r) hwf target none
        (fun b hb => by cases hb) rb hrb
      refine ⟨rb, ?_, ?_, spec.1, ?_⟩
      · show SpatialIndex.findNearestStation (SpatialIndex.buildTree (y :: ys) 0) target =
          some rb
        rw [htree]
        exact hrb
      · rcases spec.2.1 with h | h
        · cases h
        · have := (hmem rb.station).mp (by rw [htree]; exact h)
          exact this
      · intro s hs
        exact spec.2.2.1 s (by rw [← htree]; exact (hmem s).mpr hs)

/-- C10 witness: a one-station index. -/
theorem c10_witness :
    ([(⟨1, "s", (3, 4), 1⟩ : SpatialIndex.MapStation)] ≠ []) ∧
      ∃ res : SpatialIndex.Best,
        SpatialIndex.findNearestStation
            (SpatialIndex.createSpatialIndex [⟨1, "s", (3, 4), 1⟩]) (0, 0) = some res ∧
          res.station ∈ [(⟨1, "s", (3, 4), 1⟩ : SpatialIndex.MapStation)] ∧
          res.distance = Real.sqrt
            ((res.station.coordinates.1 - (0 : ℝ)) * (res.station.coordinates.1 - (0 : ℝ)) +
              (res.station.coordinates.2 - (0 : ℝ)) *
                (res.station.coordinates.2 - (0 : ℝ))) ∧
          ∀ s ∈ [(⟨1, "s", (3, 4), 1⟩ : SpatialIndex.MapStation)],
            res.distance ≤ Real.sqrt
              ((s.coordinates.1 - (0 : ℝ)) * (s.coordinates.1 - (0 : ℝ)) +
                (s.coordinates.2 - (0 : ℝ)) * (s.coordinates.2 - (0 : ℝ))) :=
  ⟨by simp, c10_find_nearest_station_euclidean [⟨1, "s", (3, 4), 1⟩] (0, 0) (by simp)⟩

/-- The map `a ↦ atan2 (√a, √(1-a))` (half the haversine central angle)
is strictly monotone on `[0, 1]`, so distances compare exactly as their
`a`-values do. -/
theorem PlanningSlice.atan2_sqrt_strictMonoOn :
    StrictMonoOn (fun a : ℝ => atan2 (Real.sqrt a) (Real.sqrt (1 - a))) (Set.Icc 0 1) := by
  intro a ha b hb hab
  simp only
  obtain ⟨ha0, _⟩ := ha
  obtain ⟨hb0, hb1⟩ := hb
  have hb0' : 0 < b := lt_of_le_of_lt ha0 hab
  have ha1' : a < 1 := lt_of_lt_of_le hab hb1
  have hsqa_pos : 0 < Real.sqrt (1 - a) := Real.sqrt_pos.mpr (by linarith)
  rcases lt_or_eq_of_le hb1 with hb1' | hb1'
  · have hsqb_pos : 0 < Real.sqrt (1 - b) := Real.sqrt_pos.mpr (by linarith)
    rw [atan2, if_pos hsqa_pos, atan2, if_pos hsqb_pos]
    apply Real.arctan_strictMono
    have h1 : Real.sqrt a / Real.sqrt (1 - a) ≤ Real.sqrt b / Real.sqrt (1 - a) :=
      (div_le_div_right hsqa_pos).mpr (Real.sqrt_le_sqrt hab.le)
    have h2 : Real.sqrt b / Real.sqrt (1 - a) < Real.sqrt b / Real.sqrt (1 - b) := by
      rw [div_lt_div_left (Real.sqrt_pos.mpr hb0') hsqa_pos hsqb_pos]
      exact Real.sqrt_lt_sqrt (by linarith) (by linarith)
    exact lt_of_le_of_lt h1 h2
  · subst hb1'
    rw [atan2, if_pos hsqa_pos]
    rw [show (1 : ℝ) - 1 = 0 by norm_num, Real.sqrt_zero, Real.sqrt_one, atan2,
      if_neg (lt_irrefl (0 : ℝ)), if_neg (lt_irrefl (0 : ℝ)), if_pos one_pos]
    exact Real.arctan_lt_pi_div_two _

/-- Distances compare exactly as the haversine `a`-values do. -/
theorem PlanningSlice.hav_lt_iff {o₁ t₁ o₂ t₂ : PlanningSlice.GeoPoint}
    (h₁ : PlanningSlice.havA o₁ t₁ ∈ Set.Icc (0 : ℝ) 1)
    (h₂ : PlanningSlice.havA o₂ t₂ ∈ Set.Icc (0 : ℝ) 1) :
    PlanningSlice.haversineDistanceMeters o₁ t₁ <
        PlanningSlice.haversineDistanceMeters o₂ t₂ ↔
      PlanningSlice.havA o₁ t₁ < PlanningSlice.havA o₂ t₂ := by
  unfold PlanningSlice.haversineDistanceMeters
  rw [mul_lt_mul_left (by norm_num : (0 : ℝ) < 6371000),
    mul_lt_mul_left (by norm_num : (0 : ℝ) < 2)]
  exact PlanningSlice.atan2_sqrt_strictMonoOn.lt_iff_lt h₁ h₂

/-- Weak-order version of `hav_lt_iff`. -/
theorem PlanningSlice.hav_le_iff {o₁ t₁ o₂ t₂ : PlanningSlice.GeoPoint}
    (h₁ : PlanningSlice.havA o₁ t₁ ∈ Set.Icc (0 : ℝ) 1)
    (h₂ : PlanningSlice.havA o₂ t₂ ∈ Set.Icc (0 : ℝ) 1) :
    PlanningSlice.haversineDistanceMeters o₁ t₁ ≤
        PlanningSlice.haversineDistanceMeters o₂ t₂ ↔
      PlanningSlice.havA o₁ t₁ ≤ PlanningSlice.havA o₂ t₂ := by
  unfold PlanningSlice.haversineDistanceMeters
  rw [mul_le_mul_left (by norm_num : (0 : ℝ) < 6371000),
    mul_le_mul_left (by norm_num : (0 : ℝ) < 2)]
  exact PlanningSlice.atan2_sqrt_strictMonoOn.le_iff_le h₁ h₂

/-- Product form of the half-angle identity. -/
theorem PlanningSlice.sin_mul_self (x : ℝ) : sin x * sin x = 1 / 2 - cos (2 * x) / 2 := by
  calc sin x * sin x = sin x ^ 2 := by ring
    _ = 1 / 2 - cos (2 * x) / 2 := Real.sin_sq_eq_half_sub x

theorem PlanningSlice.cos_pi_div_twelve :
    cos (π / 12) = (Real.sqrt 6 + Real.sqrt 2) / 4 := by
  have h6 : Real.sqrt 3 * Real.sqrt 2 = Real.sqrt 6 := by
    rw [← Real.sqrt_mul (by norm_num : (0 : ℝ) ≤ 3)]
    norm_num
  rw [show (π / 12 : ℝ) = π / 3 - π / 4 by ring, Real.cos_sub, Real.cos_pi_div_three,
    Real.cos_pi_div_four, Real.sin_pi_div_three, Real.sin_pi_div_four]
  linear_combination (1 / 4 : ℝ) * h6

theorem PlanningSlice.sin_pi_div_twelve :
    sin (π / 12) = (Real.sqrt 6 - Real.sqrt 2) / 4 := by
  have h6 : Real.sqrt 3 * Real.sqrt 2 = Real.sqrt 6 := by
    rw [← Real.sqrt_mul (by norm_num : (0 : ℝ) ≤ 3)]
    norm_num
  rw [show (π / 12 : ℝ) = π / 3 - π / 4 by ring, Real.sin_sub, Real.sin_pi_div_three,
    Real.cos_pi_div_four, Real.cos_pi_div_three, Real.sin_pi_div_four]
  linear_combination (1 / 4 : ℝ) * h6

theorem PlanningSlice.cos_five_pi_div_twelve :
    cos (5 * π / 12) = (Real.sqrt 6 - Real.sqrt 2) / 4 := by
  rw [show (5 * π / 12 : ℝ) = π / 2 - π / 12 by ring, Real.cos_pi_div_two_sub,
    PlanningSlice.sin_pi_div_twelve]

/-- Haversine `a`-value from the target `(-45°, 90°)` to the pole station
`p = (-90°, -30°)`. -/
theorem PlanningSlice.c1_a_p :
    PlanningSlice.havA ⟨-45, 90⟩ ⟨-90, -30⟩ = (2 - Real.sqrt 2) / 4 := by
  unfold PlanningSlice.havA PlanningSlice.toRadians
  rw [show ((-90 : ℝ) - -45) * π / 180 / 2 = -(π / 8) by ring,
    show ((-30 : ℝ) - 90) * π / 180 / 2 = -(π / 3) by ring,
    show ((-45 : ℝ)) * π / 180 = -(π / 4) by ring,
    show ((-90 : ℝ)) * π / 180 = -(π / 2) by ring,
    Real.sin_neg, Real.sin_neg, Real.cos_neg, Real.cos_neg, Real.cos_pi_div_two,
    show -sin (π / 8) * -sin (π / 8) = sin (π / 8) * sin (π / 8) by ring,
    PlanningSlice.sin_mul_self, show 2 * (π / 8) = π / 4 by ring, Real.cos_pi_div_four]
  ring

/-- Haversine `a`-value from the target to `n = (-60°, 0°)`, the station
the search actually returns. -/
theorem PlanningSlice.c1_a_n :
    PlanningSlice.havA ⟨-45, 90⟩ ⟨-60, 0⟩ = 1 / 2 - Real.sqrt 6 / 8 := by
  unfold PlanningSlice.havA PlanningSlice.toRadians
  rw [show ((-60 : ℝ) - -45) * π / 180 / 2 = -(π / 24) by ring,
    show ((0 : ℝ) - 90) * π / 180 / 2 = -(π / 4) by ring,
    show ((-45 : ℝ)) * π / 180 = -(π / 4) by ring,
    show ((-60 : ℝ)) * π / 180 = -(π / 3) by ring,
    Real.sin_neg, Real.sin_neg, Real.cos_neg, Real.cos_neg, Real.cos_pi_div_three,
    Real.cos_pi_div_four,
    show -sin (π / 24) * -sin (π / 24) = sin (π / 24) * sin (π / 24) by ring,
    show -sin (π / 4) * -sin (π / 4) = sin (π / 4) * sin (π / 4) by ring,
    PlanningSlice.sin_mul_self (π / 24), PlanningSlice.sin_mul_self (π / 4),
    show 2 * (π / 24) = π / 12 by ring, show 2 * (π / 4) = π / 2 by ring,
    PlanningSlice.cos_pi_div_twelve, Real.cos_pi_div_two]
  ring

/-- Haversine `a`-value from the target to `r = (0°, 45°)`, the tree
root. -/
theorem PlanningSlice.c1_a_r :
    PlanningSlice.havA ⟨-45, 90⟩ ⟨0, 45⟩ = 1 / 4 := by
  have hs2 : Real.sqrt 2 * Real.sqrt 2 = 2 := Real.mul_self_sqrt (by norm_num)
  unfold PlanningSlice.havA PlanningSlice.toRadians
  rw [show ((0 : ℝ) - -45) * π / 180 / 2 = π / 8 by ring,
    show ((45 : ℝ) - 90) * π / 180 / 2 = -(π / 8) by ring,
    show ((-45 : ℝ)) * π / 180 = -(π / 4) by ring,
    show ((0 : ℝ)) * π / 180 = 0 by ring,
    Real.sin_neg, Real.cos_neg, Real.cos_zero, Real.cos_pi_div_four,
    show -sin (π / 8) * -sin (π / 8) = sin (π / 8) * sin (π / 8) by ring,
    PlanningSlice.sin_mul_self (π / 8), show 2 * (π / 8) = π / 4 by ring,
    Real.cos_pi_div_four]
  linear_combination (-1 / 8 : ℝ) * hs2

/-- Haversine `a`-value from the target to `s = (30°, 90°)`. -/
theorem PlanningSlice.c1_a_s :
    PlanningSlice.havA ⟨-45, 90⟩ ⟨30, 90⟩ = (4 - Real.sqrt 6 + Real.sqrt 2) / 8 := by
  unfold PlanningSlice.havA PlanningSlice.toRadians
  rw [show ((30 : ℝ) - -45) * π / 180 / 2 = 5 * π / 24 by ring,
    show ((90 : ℝ) - 90) * π / 180 / 2 = 0 by ring,
    Real.sin_zero,
    PlanningSlice.sin_mul_self (5 * π / 24), show 2 * (5 * π / 24) = 5 * π / 12 by ring,
    PlanningSlice.cos_five_pi_div_twelve]
  ring

/-- Axis (longitude) distance `a`-value at node `n`: target to
`(-45°, 0°)`. -/
theorem PlanningSlice.c1_a_axn :
    PlanningSlice.havA ⟨-45, 90⟩ ⟨-45, 0⟩ = 1 / 4 := by
  have hs2 : Real.sqrt 2 * Real.sqrt 2 = 2 := Real.mul_self_sqrt (by norm_num)
  unfold PlanningSlice.havA PlanningSlice.toRadians
  rw [show ((-45 : ℝ) - -45) * π / 180 / 2 = 0 by ring,
    show ((0 : ℝ) - 90) * π / 180 / 2 = -(π / 4) by ring,
    show ((-45 : ℝ)) * π / 180 = -(π / 4) by ring,
    Real.sin_zero, Real.sin_neg, Real.cos_neg, Real.cos_pi_div_four,
    show -sin (π / 4) * -sin (π / 4) = sin (π / 4) * sin (π / 4) by ring,
    PlanningSlice.sin_mul_self (π / 4), show 2 * (π / 4) = π / 2 by ring,
    Real.cos_pi_div_two]
  linear_combination (1 / 8 : ℝ) * hs2

/-- Axis (latitude) distance `a`-value at the root: target to
`(0°, 90°)`. -/
theorem PlanningSlice.c1_a_axr :
    PlanningSlice.havA ⟨-45, 90⟩ ⟨0, 90⟩ = (2 - Real.sqrt 2) / 4 := by
  unfold PlanningSlice.havA PlanningSlice.toRadians
  rw [show ((0 : ℝ) - -45) * π / 180 / 2 = π / 8 by ring,
    show ((90 : ℝ) - 90) * π / 180 / 2 = 0 by ring,
    Real.sin_zero,
    PlanningSlice.sin_mul_self (π / 8), show 2 * (π / 8) = π / 4 by ring,
    Real.cos_pi_div_four]
  ring

/-- Surd facts needed to order the four candidate distances. -/
theorem PlanningSlice.c1_surd_facts :
    (2 - Real.sqrt 2) / 4 < 1 / 2 - Real.sqrt 6 / 8 ∧
      1 / 2 - Real.sqrt 6 / 8 < 1 / 4 ∧
      (1 / 4 : ℝ) < (4 - Real.sqrt 6 + Real.sqrt 2) / 8 ∧
      0 ≤ (2 - Real.sqrt 2) / 4 ∧ (2 - Real.sqrt 2) / 4 ≤ 1 ∧
      0 ≤ 1 / 2 - Real.sqrt 6 / 8 ∧ 1 / 2 - Real.sqrt 6 / 8 ≤ 1 ∧
      0 ≤ (4 - Real.sqrt 6 + Real.sqrt 2) / 8 ∧ (4 - Real.sqrt 6 + Real.sqrt 2) / 8 ≤ 1 := by
  have s2 := Real.sq_sqrt (show (0 : ℝ) ≤ 2 by norm_num)
  have s6 := Real.sq_sqrt (show (0 : ℝ) ≤ 6 by norm_num)
  have n2 := Real.sqrt_nonneg 2
  have n6 := Real.sqrt_nonneg 6
  refine ⟨?_, ?_, ?_, ?_, ?_, ?_, ?_, ?_, ?_⟩ <;>
    nlinarith [s2, s6, n2, n6, sq_nonneg (Real.sqrt 6 - 2 * Real.sqrt 2),
      sq_nonneg (Real.sqrt 6 - Real.sqrt 2), sq_nonneg (Real.sqrt 2 - 1),
      sq_nonneg (Real.sqrt 6 - 2), mul_nonneg n2 n6]

/-- C1.  The spec requires `kNearest(point, 1)` to equal the brute-force
haversine minimizer.  The code violates this: for the four stations below
(all distances pairwise distinct, station `p` strictly nearest to the
target), the search returns station `n`.  At node `n` the search prunes
the subtree holding `p` because the longitude-axis distance — computed as
the haversine distance at the target's own latitude — exceeds the best
distance so far, while the true distance to `p` (which lies near the
pole, where meridians converge) is smaller. -/
theorem c1_knearest_misses_true_nearest :
    (PlanningSlice.createNearestNeighborSearcher
          [⟨"p", -90, -30, none, none, 400⟩, ⟨"n", -60, 0, none, none, 400⟩,
            ⟨"r", 0, 45, none, none, 400⟩, ⟨"s", 30, 90, none, none, 400⟩]
          ⟨-45, 90⟩ 1).map (fun h => h.station.id) = ["n"] ∧
      PlanningSlice.haversineDistanceMeters ⟨-45, 90⟩
          (PlanningSlice.ExistingStation.pos ⟨"p", -90, -30, none, none, 400⟩) <
        PlanningSlice.haversineDistanceMeters ⟨-45, 90⟩
          (PlanningSlice.ExistingStation.pos ⟨"n", -60, 0, none, none, 400⟩) ∧
      PlanningSlice.haversineDistanceMeters ⟨-45, 90⟩
          (PlanningSlice.ExistingStation.pos ⟨"n", -60, 0, none, none, 400⟩) <
        PlanningSlice.haversineDistanceMeters ⟨-45, 90⟩
          (PlanningSlice.ExistingStation.pos ⟨"r", 0, 45, none, none, 400⟩) ∧
      PlanningSlice.haversineDistanceMeters ⟨-45, 90⟩
          (PlanningSlice.ExistingStation.pos ⟨"r", 0, 45, none, none, 400⟩) <
        PlanningSlice.haversineDistanceMeters ⟨-45, 90⟩
          (PlanningSlice.ExistingStation.pos ⟨"s", 30, 90, none, none, 400⟩) := by
  obtain ⟨c1, c2, c3, b1, b2, b3, b4, b5, b6⟩ := PlanningSlice.c1_surd_facts
  have hm_p : PlanningSlice.havA ⟨-45, 90⟩ ⟨-90, -30⟩ ∈ Set.Icc (0 : ℝ) 1 := by
    rw [Set.mem_Icc, PlanningSlice.c1_a_p]
    exact ⟨b1, b2⟩
  have hm_n : PlanningSlice.havA ⟨-45, 90⟩ ⟨-60, 0⟩ ∈ Set.Icc (0 : ℝ) 1 := by
    rw [Set.mem_Icc, PlanningSlice.c1_a_n]
    exact ⟨b3, b4⟩
  have hm_r : PlanningSlice.havA ⟨-45, 90⟩ ⟨0, 45⟩ ∈ Set.Icc (0 : ℝ) 1 := by
    rw [Set.mem_Icc, PlanningSlice.c1_a_r]
    norm_num
  have hm_s : PlanningSlice.havA ⟨-45, 90⟩ ⟨30, 90⟩ ∈ Set.Icc (0 : ℝ) 1 := by
    rw [Set.mem_Icc, PlanningSlice.c1_a_s]
    exact ⟨b5, b6⟩
  have hm_axn : PlanningSlice.havA ⟨-45, 90⟩ ⟨-45, 0⟩ ∈ Set.Icc (0 : ℝ) 1 := by
    rw [Set.mem_Icc, PlanningSlice.c1_a_axn]
    norm_num
  have hm_axr : PlanningSlice.havA ⟨-45, 90⟩ ⟨0, 90⟩ ∈ Set.Icc (0 : ℝ) 1 := by
    rw [Set.mem_Icc, PlanningSlice.c1_a_axr]
    exact ⟨b1, b2⟩
  have hd_pn : PlanningSlice.haversineDistanceMeters ⟨-45, 90⟩ ⟨-90, -30⟩ <
      PlanningSlice.haversineDistanceMeters ⟨-45, 90⟩ ⟨-60, 0⟩ :=
    (PlanningSlice.hav_lt_iff hm_p hm_n).mpr
      (by rw [PlanningSlice.c1_a_p, PlanningSlice.c1_a_n]; exact c1)
  have hd_nr : PlanningSlice.haversineDistanceMeters ⟨-45, 90⟩ ⟨-60, 0⟩ <
      PlanningSlice.haversineDistanceMeters ⟨-45, 90⟩ ⟨0, 45⟩ :=
    (PlanningSlice.hav_lt_iff hm_n hm_r).mpr
      (by rw [PlanningSlice.c1_a_n, PlanningSlice.c1_a_r]; exact c2)
  have hd_rs : PlanningSlice.haversineDistanceMeters ⟨-45, 90⟩ ⟨0, 45⟩ <
      PlanningSlice.haversineDistanceMeters ⟨-45, 90⟩ ⟨30, 90⟩ :=
    (PlanningSlice.hav_lt_iff hm_r hm_s).mpr
      (by rw [PlanningSlice.c1_a_r, PlanningSlice.c1_a_s]; exact c3)
  have hd_axn : PlanningSlice.haversineDistanceMeters ⟨-45, 90⟩ ⟨-60, 0⟩ ≤
      PlanningSlice.haversineDistanceMeters ⟨-45, 90⟩ ⟨-45, 0⟩ :=
    (PlanningSlice.hav_le_iff hm_n hm_axn).mpr
      (by rw [PlanningSlice.c1_a_n, PlanningSlice.c1_a_axn]; exact le_of_lt c2)
  have hd_axr : PlanningSlice.haversineDistanceMeters ⟨-45, 90⟩ ⟨0, 90⟩ <
      PlanningSlice.haversineDistanceMeters ⟨-45, 90⟩ ⟨-60, 0⟩ :=
    (PlanningSlice.hav_lt_iff hm_axr hm_n).mpr
      (by rw [PlanningSlice.c1_a_axr, PlanningSlice.c1_a_n]; exact c1)
  refine ⟨?_, hd_pn, hd_nr, hd_rs⟩
  have h1 : PlanningSlice.stationLe .lat ⟨"p", -90, -30, none, none, 400⟩
      ⟨"n", -60, 0, none, none, 400⟩ := by
    show (-90 : ℝ) ≤ -60
    norm_num
  have h2 : PlanningSlice.stationLe .lat ⟨"n", -60, 0, none, none, 400⟩
      ⟨"r", 0, 45, none, none, 400⟩ := by
    show (-60 : ℝ) ≤ 0
    norm_num
  have h3 : PlanningSlice.stationLe .lat ⟨"r", 0, 45, none, none, 400⟩
      ⟨"s", 30, 90, none, none, 400⟩ := by
    show (0 : ℝ) ≤ 30
    norm_num
  have h4 : PlanningSlice.stationLe .lng ⟨"p", -90, -30, none, none, 400⟩
      ⟨"n", -60, 0, none, none, 400⟩ := by
    show (-30 : ℝ) ≤ 0
    norm_num
  have h13 : PlanningSlice.stationLe .lat ⟨"p", -90, -30, none, none, 400⟩
      ⟨"r", 0, 45, none, none, 400⟩ := by
    show (-90 : ℝ) ≤ 0
    norm_num
  have h14 : PlanningSlice.stationLe .lat ⟨"p", -90, -30, none, none, 400⟩
      ⟨"s", 30, 90, none, none, 400⟩ := by
    show (-90 : ℝ) ≤ 30
    norm_num
  have h24 : PlanningSlice.stationLe .lat ⟨"n", -60, 0, none, none, 400⟩
      ⟨"s", 30, 90, none, none, 400⟩ := by
    show (-60 : ℝ) ≤ 30
    norm_num
  have hbuild : PlanningSlice.buildKdTree
      [⟨"p", -90, -30, none, none, 400⟩, ⟨"n", -60, 0, none, none, 400⟩,
        ⟨"r", 0, 45, none, none, 400⟩, ⟨"s", 30, 90, none, none, 400⟩] 0 =
      .node ⟨"r", 0, 45, none, none, 400⟩ .lat
        (PlanningSlice.buildKdTree
          [⟨"p", -90, -30, none, none, 400⟩, ⟨"n", -60, 0, none, none, 400⟩] 1)
        (PlanningSlice.buildKdTree [⟨"s", 30, 90, none, none, 400⟩] 1) := by
    conv_lhs => rw [PlanningSlice.buildKdTree]
    simp [h1, h2, h3, h13, h14, h24, List.insertionSort, List.orderedInsert]
  have hbuildL : PlanningSlice.buildKdTree
      [⟨"p", -90, -30, none, none, 400⟩, ⟨"n", -60, 0, none, none, 400⟩] 1 =
      .node ⟨"n", -60, 0, none, none, 400⟩ .lng
        (PlanningSlice.buildKdTree [⟨"p", -90, -30, none, none, 400⟩] 2)
        (PlanningSlice.buildKdTree [] 2) := by
    conv_lhs => rw [PlanningSlice.buildKdTree]
    simp [h4, List.insertionSort, List.orderedInsert]
  have hbuildS : PlanningSlice.buildKdTree [⟨"s", 30, 90, none, none, 400⟩] 1 =
      .node ⟨"s", 30, 90, none, none, 400⟩ .lng
        (PlanningSlice.buildKdTree [] 2) (PlanningSlice.buildKdTree [] 2) := by
    conv_lhs => rw [PlanningSlice.buildKdTree]
    simp [List.insertionSort, List.orderedInsert]
  have htryR : PlanningSlice.tryInsert ⟨-45, 90⟩ 1 [] ⟨"r", 0, 45, none, none, 400⟩ =
      [⟨⟨"r", 0, 45, none, none, 400⟩, PlanningSlice.haversineDistanceMeters ⟨-45, 90⟩
        (PlanningSlice.ExistingStation.pos ⟨"r", 0, 45, none, none, 400⟩)⟩] := by
    simp [PlanningSlice.tryInsert, List.insertionSort, List.orderedInsert]
  have hleRN : ¬ PlanningSlice.hitLe
      ⟨⟨"r", 0, 45, none, none, 400⟩, PlanningSlice.haversineDistanceMeters ⟨-45, 90⟩
        (PlanningSlice.ExistingStation.pos ⟨"r", 0, 45, none, none, 400⟩)⟩
      ⟨⟨"n", -60, 0, none, none, 400⟩, PlanningSlice.haversineDistanceMeters ⟨-45, 90⟩
        (PlanningSlice.ExistingStation.pos ⟨"n", -60, 0, none, none, 400⟩)⟩ := by
    show ¬ PlanningSlice.haversineDistanceMeters ⟨-45, 90⟩
        (PlanningSlice.ExistingStation.pos ⟨"r", 0, 45, none, none, 400⟩) ≤
      PlanningSlice.haversineDistanceMeters ⟨-45, 90⟩
        (PlanningSlice.ExistingStation.pos ⟨"n", -60, 0, none, none, 400⟩)
    exact not_le.mpr hd_nr
  have hleNS : PlanningSlice.hitLe
      ⟨⟨"n", -60, 0, none, none, 400⟩, PlanningSlice.haversineDistanceMeters ⟨-45, 90⟩
        (PlanningSlice.ExistingStation.pos ⟨"n", -60, 0, none, none, 400⟩)⟩
      ⟨⟨"s", 30, 90, none, none, 400⟩, PlanningSlice.haversineDistanceMeters ⟨-45, 90⟩
        (PlanningSlice.ExistingStation.pos ⟨"s", 30, 90, none, none, 400⟩)⟩ := by
    show PlanningSlice.haversineDistanceMeters ⟨-45, 90⟩
        (PlanningSlice.ExistingStation.pos ⟨"n", -60, 0, none, none, 400⟩) ≤
      PlanningSlice.haversineDistanceMeters ⟨-45, 90⟩
        (PlanningSlice.ExistingStation.pos ⟨"s", 30, 90, none, none, 400⟩)
    exact le_of_lt (lt_trans hd_nr hd_rs)
  have htryN : PlanningSlice.tryInsert ⟨-45, 90⟩ 1
      [⟨⟨"r", 0, 45, none, none, 400⟩, PlanningSlice.haversineDistanceMeters ⟨-45, 90⟩
        (PlanningSlice.ExistingStation.pos ⟨"r", 0, 45, none, none, 400⟩)⟩]
      ⟨"n", -60, 0, none, none, 400⟩ =
      [⟨⟨"n", -60, 0, none, none, 400⟩, PlanningSlice.haversineDistanceMeters ⟨-45, 90⟩
        (PlanningSlice.ExistingStation.pos ⟨"n", -60, 0, none, none, 400⟩)⟩] := by
    simp [PlanningSlice.tryInsert, List.insertionSort, List.orderedInsert, hleRN]
  have htryS : PlanningSlice.tryInsert ⟨-45, 90⟩ 1
      [⟨⟨"n", -60, 0, none, none, 400⟩, PlanningSlice.haversineDistanceMeters ⟨-45, 90⟩
        (PlanningSlice.ExistingStation.pos ⟨"n", -60, 0, none, none, 400⟩)⟩]
      ⟨"s", 30, 90, none, none, 400⟩ =
      [⟨⟨"n", -60, 0, none, none, 400⟩, PlanningSlice.haversineDistanceMeters ⟨-45, 90⟩
        (PlanningSlice.ExistingStation.pos ⟨"n", -60, 0, none, none, 400⟩)⟩] := by
    simp [PlanningSlice.tryInsert, List.insertionSort, List.orderedInsert, hleNS]
  have hworstN : PlanningSlice.worstDistance
      [⟨⟨"n", -60, 0, none, none, 400⟩, PlanningSlice.haversineDistanceMeters ⟨-45, 90⟩
        (PlanningSlice.ExistingStation.pos ⟨"n", -60, 0, none, none, 400⟩)⟩] =
      ((PlanningSlice.haversineDistanceMeters ⟨-45, 90⟩
        (PlanningSlice.ExistingStation.pos ⟨"n", -60, 0, none, none, 400⟩) : ℝ) :
        WithTop ℝ) := by
    simp [PlanningSlice.worstDistance]
  have hcondN : ¬(([⟨⟨"n", -60, 0, none, none, 400⟩,
        PlanningSlice.haversineDistanceMeters ⟨-45, 90⟩
          (PlanningSlice.ExistingStation.pos ⟨"n", -60, 0, none, none, 400⟩)⟩] :
        List PlanningSlice.NearestStationHit).length < 1 ∨
      ((PlanningSlice.axisDistanceMeters ⟨-45, 90⟩ ⟨"n", -60, 0, none, none, 400⟩
          .lng : ℝ) : WithTop ℝ) <
        PlanningSlice.worstDistance
          [⟨⟨"n", -60, 0, none, none, 400⟩, PlanningSlice.haversineDistanceMeters ⟨-45, 90⟩
            (PlanningSlice.ExistingStation.pos ⟨"n", -60, 0, none, none, 400⟩)⟩]) := by
    rw [not_or, hworstN]
    constructor
    · norm_num
    · rw [WithTop.coe_lt_coe]
      push_neg
      show PlanningSlice.haversineDistanceMeters ⟨-45, 90⟩
          (PlanningSlice.ExistingStation.pos ⟨"n", -60, 0, none, none, 400⟩) ≤
        PlanningSlice.haversineDistanceMeters ⟨-45, 90⟩ ⟨-45, 0⟩
      exact hd_axn
  have hcondR : (([⟨⟨"n", -60, 0, none, none, 400⟩,
        PlanningSlice.haversineDistanceMeters ⟨-45, 90⟩
          (PlanningSlice.ExistingStation.pos ⟨"n", -60, 0, none, none, 400⟩)⟩] :
        List PlanningSlice.NearestStationHit).length < 1 ∨
      ((PlanningSlice.axisDistanceMeters ⟨-45, 90⟩ ⟨"r", 0, 45, none, none, 400⟩
          .lat : ℝ) : WithTop ℝ) <
        PlanningSlice.worstDistance
          [⟨⟨"n", -60, 0, none, none, 400⟩, PlanningSlice.haversineDistanceMeters ⟨-45, 90⟩
            (PlanningSlice.ExistingStation.pos ⟨"n", -60, 0, none, none, 400⟩)⟩]) := by
    refine Or.inr ?_
    rw [hworstN, WithTop.coe_lt_coe]
    show PlanningSlice.haversineDistanceMeters ⟨-45, 90⟩ ⟨0, 90⟩ <
      PlanningSlice.haversineDistanceMeters ⟨-45, 90⟩
        (PlanningSlice.ExistingStation.pos ⟨"n", -60, 0, none, none, 400⟩)
    exact hd_axr
  have hδr : PlanningSlice.GeoPoint.coord ⟨-45, 90⟩ .lat -
      PlanningSlice.ExistingStation.coord ⟨"r", 0, 45, none, none, 400⟩ .lat < 0 := by
    show (-45 : ℝ) - 0 < 0
    norm_num
  have hδn : ¬(PlanningSlice.GeoPoint.coord ⟨-45, 90⟩ .lng -
      PlanningSlice.ExistingStation.coord ⟨"n", -60, 0, none, none, 400⟩ .lng < 0) := by
    show ¬((90 : ℝ) - 0 < 0)
    norm_num
  have hδs : ¬(PlanningSlice.GeoPoint.coord ⟨-45, 90⟩ .lng -
      PlanningSlice.ExistingStation.coord ⟨"s", 30, 90, none, none, 400⟩ .lng < 0) := by
    show ¬((90 : ℝ) - 90 < 0)
    norm_num
  show (PlanningSlice.traverse ⟨-45, 90⟩ 1 (PlanningSlice.buildKdTree
      [⟨"p", -90, -30, none, none, 400⟩, ⟨"n", -60, 0, none, none, 400⟩,
        ⟨"r", 0, 45, none, none, 400⟩, ⟨"s", 30, 90, none, none, 400⟩] 0) []).map
      (fun h => h.station.id) = ["n"]
  rw [hbuild, hbuildL, hbuildS]
  simp only [PlanningSlice.buildKdTree_nil]
  simp only [PlanningSlice.traverse, htryR, htryN, htryS, hδr, hδn, hδs, hcondN, hcondR,
    if_true, if_false, ite_self, not_false_eq_true]
  simp
